import Mathlib

/-!
# Pinball0: physics solver and game-mode state machine

A shallow embedding of `solve` and of the event loop body of `pinball0_app`
(file `pinball0.cxx`).

Conventions of the embedding.

* `float` values are elements of a linear ordered field `K` (exact arithmetic);
  `sqrtf` is a parameter.  Division is the field division (total, `x / 0 = 0`);
  `collide_pair_checked` is the same computation with every division checked.
* `int` fields (`score.value`, `lives.value`, `bump_count`, the settings cursor)
  are mathematical integers: signed overflow is undefined in the source and
  is not modelled.
* `uint32_t` ticks are naturals below `2 ^ 32` with wrapping subtraction.
* Calls into the notification, settings and table-loading collaborators are
  recorded in an effect log, in call order.
-/

namespace Pinball0

/-! ## Constants (lines 16-22) -/

/-- GRAVITY, line 16. -/
def GRAVITY {K : Type} [LinearOrderedField K] : K := 3.0

/-- PHYSICS_SUB_STEPS, line 17. -/
def PHYSICS_SUB_STEPS : Nat := 5

/-- MANUAL_ADJUSTMENT, line 19. -/
def MANUAL_ADJUSTMENT {K : Type} [LinearOrderedField K] : K := 20

/-- BUMP_DELAY, line 21: two seconds of ticks. -/
def BUMP_DELAY : Nat := 2 * 1000

/-- BUMP_MAX, line 22. -/
def BUMP_MAX : Int := 3

/-! ## Vectors and balls -/

/-- Modelled from the spec: the 2D vector of the absent header (componentwise
add, subtract, scale, squared magnitude). -/
structure Vec2 (K : Type) where
  x : K
  y : K
deriving DecidableEq, Repr

namespace Vec2

variable {K : Type} [LinearOrderedField K]

instance : Add (Vec2 K) := ⟨fun a b => ⟨a.x + b.x, a.y + b.y⟩⟩
instance : Sub (Vec2 K) := ⟨fun a b => ⟨a.x - b.x, a.y - b.y⟩⟩
instance : HMul (Vec2 K) K (Vec2 K) := ⟨fun a s => ⟨a.x * s, a.y * s⟩⟩

/-- Squared magnitude. -/
def mag2 (a : Vec2 K) : K := a.x * a.x + a.y * a.y

end Vec2

/-- Modelled from the spec: a ball of the absent header, with current
position, previous position (implicit velocity `p - prev_p`) and radius. -/
structure Ball (K : Type) where
  p : Vec2 K
  prev_p : Vec2 K
  r : K
deriving DecidableEq, Repr

section Collision

variable {K : Type} [LinearOrderedField K]

/-- Body of the inner ball-ball loop, lines 50-73, for the pair
`(ball1, ball2)`; returns the updated pair. -/
def collide_pair (sqrtf : K → K) (ball1 ball2 : Ball K) : Ball K × Ball K :=
  let axis : Vec2 K := ball1.p - ball2.p
  let dist2 : K := axis.mag2
  let dist : K := sqrtf dist2
  let rr : K := ball1.r + ball2.r
  if dist < rr then
    let v1 : Vec2 K := ball1.p - ball1.prev_p
    let v2 : Vec2 K := ball2.p - ball2.prev_p
    let factor : K := (dist - rr) / dist
    let p1 : Vec2 K := ball1.p - axis * factor * (0.5 : K)
    let p2 : Vec2 K := ball2.p - axis * factor * (0.5 : K)
    let damping : K := 1.01
    let f1 : K := (damping * (axis.x * v1.x + axis.y * v1.y)) / dist2
    let f2 : K := (damping * (axis.x * v2.x + axis.y * v2.y)) / dist2
    let v1x : K := v1.x + (f2 * axis.x - f1 * axis.x)
    let v2x : K := v2.x + (f1 * axis.x - f2 * axis.x)
    let v1y : K := v1.y + (f2 * axis.y - f1 * axis.y)
    let v2y : K := v2.y + (f1 * axis.y - f2 * axis.y)
    ({ ball1 with p := p1, prev_p := p1 - ⟨v1x, v1y⟩ },
     { ball2 with p := p2, prev_p := p2 - ⟨v2x, v2y⟩ })
  else
    (ball1, ball2)

/-- Division that reports a zero divisor. -/
def checked_div (a b : K) : Option K :=
  if b = 0 then none else some (a / b)

/-- The computation of `collide_pair` with its three divisions (lines 58,
63, 64) checked: `none` when one of them is evaluated with a zero divisor
(where IEEE arithmetic yields an infinity or a NaN). -/
def collide_pair_checked (sqrtf : K → K) (ball1 ball2 : Ball K) :
    Option (Ball K × Ball K) :=
  let axis : Vec2 K := ball1.p - ball2.p
  let dist2 : K := axis.mag2
  let dist : K := sqrtf dist2
  let rr : K := ball1.r + ball2.r
  if dist < rr then
    let v1 : Vec2 K := ball1.p - ball1.prev_p
    let v2 : Vec2 K := ball2.p - ball2.prev_p
    (checked_div (dist - rr) dist).bind fun factor =>
    let p1 : Vec2 K := ball1.p - axis * factor * (0.5 : K)
    let p2 : Vec2 K := ball2.p - axis * factor * (0.5 : K)
    let damping : K := 1.01
    (checked_div (damping * (axis.x * v1.x + axis.y * v1.y)) dist2).bind fun f1 =>
    (checked_div (damping * (axis.x * v2.x + axis.y * v2.y)) dist2).bind fun f2 =>
    let v1x : K := v1.x + (f2 * axis.x - f1 * axis.x)
    let v2x : K := v2.x + (f1 * axis.x - f2 * axis.x)
    let v1y : K := v1.y + (f2 * axis.y - f1 * axis.y)
    let v2y : K := v2.y + (f1 * axis.y - f2 * axis.y)
    some ({ ball1 with p := p1, prev_p := p1 - ⟨v1x, v1y⟩ },
          { ball2 with p := p2, prev_p := p2 - ⟨v2x, v2y⟩ })
  else
    some (ball1, ball2)

/-- Inner loop of lines 45-75: `b2` runs over `k` consecutive indices; the
vector is updated in place. -/
def collide_inner (sqrtf : K → K) (b1 : Nat) :
    Nat → Nat → List (Ball K) → List (Ball K)
  | 0, _, balls => balls
  | k + 1, b2, balls =>
    match balls.get? b1, balls.get? b2 with
    | some ball1, some ball2 =>
      if b1 ≠ b2 then
        let r := collide_pair sqrtf ball1 ball2
        collide_inner sqrtf b1 k (b2 + 1) ((balls.set b1 r.1).set b2 r.2)
      else
        collide_inner sqrtf b1 k (b2 + 1) balls
    | _, _ => balls

/-- Outer loop of lines 44-76: `b1` runs over `k` consecutive indices. -/
def collide_outer (sqrtf : K → K) :
    Nat → Nat → List (Ball K) → List (Ball K)
  | 0, _, balls => balls
  | k + 1, b1, balls =>
    collide_outer sqrtf k (b1 + 1)
      (collide_inner sqrtf b1 (balls.length - (b1 + 1)) (b1 + 1) balls)

/-- Ball-ball collision stage of one sub-step, lines 44-76. -/
def collide_balls (sqrtf : K → K) (balls : List (Ball K)) : List (Ball K) :=
  collide_outer sqrtf balls.length 0 balls

end Collision

/-! ## Data model -/

/-- Game modes of the session. -/
inductive GameMode
  | GM_TableSelect
  | GM_Playing
  | GM_Settings
  | GM_GameOver
  | GM_Error
  | GM_Tilted
deriving DecidableEq, Repr

/-- Identifiers passed to `table_load_table`: the three sentinels and
`sel + TABLE_INDEX_OFFSET` for catalogue entry `sel`. -/
inductive TableId
  | TABLE_SELECT
  | TABLE_SETTINGS
  | TABLE_ERROR
  | index (sel : Nat)
deriving DecidableEq, Repr

/-- Modelled from the spec: the calls into the absent notification, settings
and table-loading collaborators, which are fire-and-forget; a call is
recorded in the log, in call order, and changes nothing else of the session.
The two notification constructors stand for `(*o->notification)(pb)` and
`(*f.notification)(pb)`, the callback being identified by a number;
`reset_animation` records the call of that object method. -/
inductive Effect
  | object_notification (n : Nat)
  | flipper_notification (n : Nat)
  | reset_animation
  | notify_lost_life
  | notify_flipper
  | notify_table_bump
  | notify_table_tilted
  | notify_ball_released
  | notify_error_message
  | notify_game_over
  | save_settings
  | load_table (id : TableId)
deriving DecidableEq, Repr

/-- Modelled from the spec: a collidable object of the absent `table.h`;
`state` is its geometry and animation state, which only the absent routines
read. -/
structure Object (σ : Type) where
  physical : Bool
  score : Int
  notification : Option Nat
  state : σ
deriving DecidableEq, Repr

/-- Side of a flipper. -/
inductive Side
  | LEFT
  | RIGHT
deriving DecidableEq, Repr

/-- Modelled from the spec: a flipper of the absent `table.h`; `state` is the
geometry only the absent routines read. -/
structure Flipper (K φ : Type) where
  side : Side
  rotation : K
  max_rotation : K
  powered : Bool
  score : Int
  notification : Option Nat
  state : φ
deriving DecidableEq, Repr

/-- Modelled from the spec: the table aggregate of the absent `table.h`, with
the fields `pinball0.cxx` reads and writes. -/
structure Table (K σ φ : Type) where
  balls : List (Ball K)
  balls_initial : List (Ball K)
  objects : List (Object σ)
  flippers : List (Flipper K φ)
  score : Int
  lives : Int
  balls_released : Bool
  bump_count : Int
  last_bump : Nat
  tilt_detect_enabled : Bool
  game_over : Bool
deriving DecidableEq, Repr

/-- The held-key array `keys`, indexed by the four directional keys. -/
structure Keys where
  up : Bool
  down : Bool
  right : Bool
  left : Bool
deriving DecidableEq, Repr

/-- Modelled from the spec: the settings record of the absent `settings.h`. -/
structure Settings where
  sound_enabled : Bool
  led_enabled : Bool
  vibrate_enabled : Bool
  debug_mode : Bool
  selected_setting : Int
  max_settings : Int
deriving DecidableEq, Repr

/-- Modelled from the spec: the menu carousel; `size` is
`menu_items.size()`. -/
structure TableList where
  selected : Nat
  size : Nat
deriving DecidableEq, Repr

/-- Session state, the fields of `PinballApp` the loop body uses, and the
effect log. -/
structure PinballApp (K σ φ : Type) where
  table : Table K σ φ
  game_mode : GameMode
  keys : Keys
  settings : Settings
  table_list : TableList
  processing : Bool
  log : List Effect
deriving DecidableEq, Repr

/-- Modelled from the spec: the routines `pinball0.cxx` calls whose bodies
are absent (`Ball::accelerate`, `Ball::update`, the objects' and flippers'
`collide`, `reset_animation`, `step_animation`, `Flipper::update`,
`table_load_table`), and `sqrtf`.  A `collide` returns whether it hit, the
object after the call and the ball after the call.  `table_load_table`
returns its success flag and the table the session holds afterwards. -/
structure Externals (K σ φ : Type) where
  sqrtf : K → K
  accelerate : Ball K → Vec2 K → Ball K
  ball_update : Ball K → K → Ball K
  object_collide : Object σ → Ball K → Bool × Object σ × Ball K
  reset_animation : Object σ → Object σ
  step_animation : Object σ → Object σ
  flipper_collide : Flipper K φ → Ball K → Bool × Flipper K φ × Ball K
  flipper_update : Flipper K φ → K → Flipper K φ
  table_load_table : PinballApp K σ φ → TableId → Bool × Table K σ φ

section Solve

variable {K σ φ : Type} [LinearOrderedField K]

/-! ## Collisions with objects and flippers (lines 79-105) -/

/-- State threaded through the object loop for one ball. -/
structure ObjectPass (K σ : Type) where
  objects : List (Object σ)
  ball : Ball K
  score : Int
  log : List Effect

/-- State threaded through the flipper loop for one ball. -/
structure FlipperPass (K φ : Type) where
  flippers : List (Flipper K φ)
  ball : Ball K
  score : Int
  log : List Effect

/-- State threaded through the loop over the balls. -/
structure StaticPass (K σ φ : Type) where
  balls : List (Ball K)
  objects : List (Object σ)
  flippers : List (Flipper K φ)
  score : Int
  log : List Effect

/-- Log after the optional notification callback of an object. -/
def fire_object (n : Option Nat) (log : List Effect) : List Effect :=
  match n with
  | some k => log ++ [Effect.object_notification k]
  | none => log

/-- Log after the optional notification callback of a flipper. -/
def fire_flipper (n : Option Nat) (log : List Effect) : List Effect :=
  match n with
  | some k => log ++ [Effect.flipper_notification k]
  | none => log

/-- Object loop for one ball, lines 80-92. -/
def collide_objects (env : Externals K σ φ) (game_mode : GameMode) :
    List (Object σ) → Ball K → Int → List Effect → ObjectPass K σ
  | [], b, score, log => ⟨[], b, score, log⟩
  | o :: os, b, score, log =>
    if o.physical then
      let c := env.object_collide o b
      if c.1 then
        if game_mode = GameMode.GM_Tilted then
          let r := collide_objects env game_mode os c.2.2 score log
          { r with objects := c.2.1 :: r.objects }
        else
          let log1 := fire_object c.2.1.notification log
          let r := collide_objects env game_mode os c.2.2 (score + c.2.1.score)
            (log1 ++ [Effect.reset_animation])
          { r with objects := env.reset_animation c.2.1 :: r.objects }
      else
        let r := collide_objects env game_mode os c.2.2 score log
        { r with objects := c.2.1 :: r.objects }
    else
      let r := collide_objects env game_mode os b score log
      { r with objects := o :: r.objects }

/-- Flipper loop for one ball, lines 93-104. -/
def collide_flippers (env : Externals K σ φ) (game_mode : GameMode) :
    List (Flipper K φ) → Ball K → Int → List Effect → FlipperPass K φ
  | [], b, score, log => ⟨[], b, score, log⟩
  | f :: fs, b, score, log =>
    let c := env.flipper_collide f b
    if c.1 then
      if game_mode = GameMode.GM_Tilted then
        let r := collide_flippers env game_mode fs c.2.2 score log
        { r with flippers := c.2.1 :: r.flippers }
      else
        let log1 := fire_flipper c.2.1.notification log
        let r := collide_flippers env game_mode fs c.2.2 (score + c.2.1.score) log1
        { r with flippers := c.2.1 :: r.flippers }
    else
      let r := collide_flippers env game_mode fs c.2.2 score log
      { r with flippers := c.2.1 :: r.flippers }

/-- Loop over the balls, lines 79-105. -/
def collide_statics (env : Externals K σ φ) (game_mode : GameMode) :
    List (Ball K) → List (Object σ) → List (Flipper K φ) → Int → List Effect →
    StaticPass K σ φ
  | [], objects, flippers, score, log => ⟨[], objects, flippers, score, log⟩
  | b :: bs, objects, flippers, score, log =>
    let ro := collide_objects env game_mode objects b score log
    let rf := collide_flippers env game_mode flippers ro.ball ro.score ro.log
    let r := collide_statics env game_mode bs ro.objects rf.flippers rf.score rf.log
    { r with balls := rf.ball :: r.balls }

/-! ## One sub-step and the sub-step loop (lines 27-116) -/

/-- One iteration of the sub-step loop, lines 29-115. -/
def sub_step (env : Externals K σ φ) (pb : PinballApp K σ φ) (sub_dt : K) :
    PinballApp K σ φ :=
  let table := pb.table
  let balls1 :=
    if table.balls_released then
      let bump_amt : K := if pb.keys.up then -1.04 else 1.0
      table.balls.map fun b => env.accelerate b ⟨0, GRAVITY * bump_amt * sub_dt⟩
    else table.balls
  let balls2 := collide_balls env.sqrtf balls1
  let r := collide_statics env pb.game_mode balls2 table.objects table.flippers
    table.score pb.log
  let balls3 :=
    if table.balls_released then r.balls.map fun b => env.ball_update b sub_dt
    else r.balls
  let flippers := r.flippers.map fun f => env.flipper_update f sub_dt
  { pb with
    table := { table with
      balls := balls3, objects := r.objects, flippers := flippers, score := r.score },
    log := r.log }

/-- The loop of line 28 run `n` times. -/
def sub_steps (env : Externals K σ φ) :
    Nat → PinballApp K σ φ → K → PinballApp K σ φ
  | 0, pb, _ => pb
  | n + 1, pb, sub_dt => sub_steps env n (sub_step env pb sub_dt) sub_dt

/-! ## Life and round bookkeeping (lines 118-145) -/

/-- The erase loop of lines 121-131 over the remaining balls, threading
`num_in_play` and the effect log. -/
def erase_fallen : List (Ball K) → Nat → List Effect →
    List (Ball K) × Nat × List Effect
  | [], num_in_play, log => ([], num_in_play, log)
  | b :: rest, num_in_play, log =>
    if (1280 + 100 : K) < b.p.y then
      erase_fallen rest (num_in_play - 1) (log ++ [Effect.notify_lost_life])
    else
      let r := erase_fallen rest num_in_play log
      (b :: r.1, r.2)

/-- Lines 118-145. -/
def life_bookkeeping (pb : PinballApp K σ φ) : PinballApp K σ φ :=
  if pb.table.balls.length ≠ 0 then
    let r := erase_fallen pb.table.balls pb.table.balls.length pb.log
    if r.2.1 = 0 then
      let lives := pb.table.lives - 1
      if lives > 0 then
        { pb with
          table := { pb.table with
            balls := pb.table.balls_initial, balls_released := false, lives := lives },
          game_mode :=
            if pb.game_mode = GameMode.GM_Tilted then GameMode.GM_Playing
            else pb.game_mode,
          log := r.2.2 }
      else
        { pb with
          table := { pb.table with
            balls := r.1, balls_released := false, lives := lives, game_over := true },
          log := r.2.2 }
    else
      { pb with table := { pb.table with balls := r.1 }, log := r.2.2 }
  else pb

/-- Lines 27-116: the state `solve` has reached when the bookkeeping of line
118 starts. -/
def run_sub_steps (env : Externals K σ φ) (pb : PinballApp K σ φ) (dt : K) :
    PinballApp K σ φ :=
  let sub_dt : K := dt / (PHYSICS_SUB_STEPS : K)
  sub_steps env PHYSICS_SUB_STEPS pb sub_dt

/-- The function `solve`, lines 24-146. -/
def solve (env : Externals K σ φ) (pb : PinballApp K σ φ) (dt : K) :
    PinballApp K σ φ :=
  life_bookkeeping (run_sub_steps env pb dt)

end Solve

/-! ## Input handling and the loop body (lines 425-628) -/

/-- Keys of an input event. -/
inductive InputKey
  | InputKeyUp
  | InputKeyDown
  | InputKeyRight
  | InputKeyLeft
  | InputKeyOk
  | InputKeyBack
deriving DecidableEq, Repr

/-- Types of an input event; `InputTypeShort` is the one type the loop
ignores. -/
inductive InputType
  | InputTypePress
  | InputTypeRelease
  | InputTypeShort
  | InputTypeLong
  | InputTypeRepeat
deriving DecidableEq, Repr

/-- An input event together with the value `furi_get_tick()` returns while
it is handled (read at line 496). -/
structure InputEvent where
  key : InputKey
  type : InputType
  current_tick : Nat
deriving DecidableEq, Repr

/-- Subtraction of `uint32_t` ticks. -/
def tick_sub (a b : Nat) : Nat := (a + 2 ^ 32 - b) % 2 ^ 32

/-- Index arithmetic of line 519 in `size_t`. -/
def menu_prev (selected size : Nat) : Nat :=
  ((selected + (2 ^ 32 - 1) + size) % 2 ^ 32) % size

/-- Index arithmetic of line 543 in `size_t`. -/
def menu_next (selected size : Nat) : Nat :=
  ((selected + 1 + size) % 2 ^ 32) % size

section Input

variable {K σ φ : Type} [LinearOrderedField K]

/-- Offsets `balls[0].p.x` and `balls[0].prev_p.x` by `d`; an empty list,
where the source indexes out of range, is left as it is. -/
def adjust_x (balls : List (Ball K)) (d : K) : List (Ball K) :=
  match balls with
  | [] => []
  | b :: rest =>
    { b with p := { b.p with x := b.p.x + d },
             prev_p := { b.prev_p with x := b.prev_p.x + d } } :: rest

/-- Offsets `balls[0].p.y` and `balls[0].prev_p.y` by `d`; an empty list,
where the source indexes out of range, is left as it is. -/
def adjust_y (balls : List (Ball K)) (d : K) : List (Ball K) :=
  match balls with
  | [] => []
  | b :: rest =>
    { b with p := { b.p with y := b.p.y + d },
             prev_p := { b.prev_p with y := b.prev_p.y + d } } :: rest

/-- A call `table_load_table(&app, id)`: the table is replaced and the call
logged; the flag is the return value. -/
def load_table (env : Externals K σ φ) (app : PinballApp K σ φ) (id : TableId) :
    Bool × PinballApp K σ φ :=
  let r := env.table_load_table app id
  (r.1, { app with table := r.2, log := app.log ++ [Effect.load_table id] })

/-- Lines 443-466 and 467-490: a Right or Left press, `side` being the
flipper side of the key and `d` the signed manual adjustment. -/
def press_flipper_key (app : PinballApp K σ φ) (side : Side) (d : K) :
    PinballApp K σ φ :=
  if app.game_mode = GameMode.GM_Tilted then app
  else
    let keys : Keys :=
      match side with
      | Side.RIGHT => { app.keys with right := true }
      | Side.LEFT => { app.keys with left := true }
    let balls :=
      if app.settings.debug_mode && app.table.balls_released == false then
        adjust_x app.table.balls d
      else app.table.balls
    let flipper_pressed : Bool :=
      app.table.flippers.any fun f => f.side = side && f.rotation != f.max_rotation
    let flippers :=
      app.table.flippers.map fun f =>
        if f.side = side then { f with powered := true } else f
    { app with
      keys := keys,
      table := { app.table with balls := balls, flippers := flippers },
      log := if flipper_pressed then app.log ++ [Effect.notify_flipper] else app.log }

/-- Lines 494-511: bump and tilt tracking of an Up press in mode Playing. -/
def track_bump (app : PinballApp K σ φ) (current_tick : Nat) : PinballApp K σ φ :=
  if BUMP_DELAY ≤ tick_sub current_tick app.table.last_bump then
    let bump_count := app.table.bump_count + 1
    if !app.table.tilt_detect_enabled || bump_count < BUMP_MAX then
      { app with
        table := { app.table with bump_count := bump_count, last_bump := current_tick },
        keys := { app.keys with up := true },
        log := app.log ++ [Effect.notify_table_bump] }
    else
      { app with
        table := { app.table with bump_count := 0, last_bump := current_tick },
        game_mode := GameMode.GM_Tilted,
        log := app.log ++ [Effect.notify_table_tilted] }
  else app

/-- Lines 491-531: an Up press, long press or repeat. -/
def press_up (app : PinballApp K σ φ) (ev : InputEvent) : PinballApp K σ φ :=
  match app.game_mode with
  | GameMode.GM_Playing =>
    let app1 :=
      if ev.type = InputType.InputTypePress then track_bump app ev.current_tick
      else app
    if app1.settings.debug_mode && app1.table.balls_released == false then
      { app1 with
        table := { app1.table with
          balls := adjust_y app1.table.balls (-MANUAL_ADJUSTMENT) } }
    else app1
  | GameMode.GM_TableSelect =>
    { app with
      table_list := { app.table_list with
        selected := menu_prev app.table_list.selected app.table_list.size } }
  | GameMode.GM_Settings =>
    if app.settings.selected_setting > 0 then
      { app with
        settings := { app.settings with
          selected_setting := app.settings.selected_setting - 1 } }
    else app
  | _ => app

/-- Lines 532-554: a Down press, long press or repeat. -/
def press_down (app : PinballApp K σ φ) : PinballApp K σ φ :=
  match app.game_mode with
  | GameMode.GM_Playing =>
    let balls :=
      if app.settings.debug_mode && app.table.balls_released == false then
        adjust_y app.table.balls MANUAL_ADJUSTMENT
      else app.table.balls
    { app with
      keys := { app.keys with down := true },
      table := { app.table with balls := balls } }
  | GameMode.GM_TableSelect =>
    { app with
      table_list := { app.table_list with
        selected := menu_next app.table_list.selected app.table_list.size } }
  | GameMode.GM_Settings =>
    if app.settings.selected_setting < app.settings.max_settings - 1 then
      { app with
        settings := { app.settings with
          selected_setting := app.settings.selected_setting + 1 } }
    else app
  | _ => app

/-- Lines 577-592: toggling the selected setting. -/
def toggle_setting (s : Settings) : Settings :=
  if s.selected_setting = 0 then { s with sound_enabled := !s.sound_enabled }
  else if s.selected_setting = 1 then { s with led_enabled := !s.led_enabled }
  else if s.selected_setting = 2 then { s with vibrate_enabled := !s.vibrate_enabled }
  else if s.selected_setting = 3 then { s with debug_mode := !s.debug_mode }
  else s

/-- Lines 555-597: an Ok press, long press or repeat. -/
def press_ok (env : Externals K σ φ) (app : PinballApp K σ φ) : PinballApp K σ φ :=
  match app.game_mode with
  | GameMode.GM_Playing =>
    if !app.table.balls_released then
      { app with
        table := { app.table with balls_released := true },
        log := app.log ++ [Effect.notify_ball_released] }
    else app
  | GameMode.GM_TableSelect =>
    let sel := app.table_list.selected
    if sel = (app.table_list.size + (2 ^ 32 - 1)) % 2 ^ 32 then
      (load_table env { app with game_mode := GameMode.GM_Settings }
        TableId.TABLE_SETTINGS).2
    else
      let r := load_table env app (TableId.index sel)
      if !r.1 then
        let r2 := load_table env { r.2 with game_mode := GameMode.GM_Error }
          TableId.TABLE_ERROR
        { r2.2 with log := r2.2.log ++ [Effect.notify_error_message] }
      else
        { r.2 with game_mode := GameMode.GM_Playing }
  | GameMode.GM_Settings =>
    { app with settings := toggle_setting app.settings }
  | _ => app

/-- Lines 429-442: a Back press, long press or repeat. -/
def press_back (env : Externals K σ φ) (app : PinballApp K σ φ) : PinballApp K σ φ :=
  match app.game_mode with
  | GameMode.GM_TableSelect => { app with processing := false }
  | GameMode.GM_Settings =>
    let app1 := { app with log := app.log ++ [Effect.save_settings] }
    (load_table env { app1 with game_mode := GameMode.GM_TableSelect }
      TableId.TABLE_SELECT).2
  | _ =>
    (load_table env { app with game_mode := GameMode.GM_TableSelect }
      TableId.TABLE_SELECT).2

/-- Lines 601-612: a key release. -/
def release_key (app : PinballApp K σ φ) (key : InputKey) : PinballApp K σ φ :=
  if key ≠ InputKey.InputKeyOk ∧ key ≠ InputKey.InputKeyBack then
    let keys : Keys :=
      match key with
      | InputKey.InputKeyUp => { app.keys with up := false }
      | InputKey.InputKeyDown => { app.keys with down := false }
      | InputKey.InputKeyRight => { app.keys with right := false }
      | InputKey.InputKeyLeft => { app.keys with left := false }
      | _ => app.keys
    let flippers :=
      app.table.flippers.map fun f =>
        if key = InputKey.InputKeyLeft ∧ f.side = Side.LEFT then
          { f with powered := false }
        else if key = InputKey.InputKeyRight ∧ f.side = Side.RIGHT then
          { f with powered := false }
        else f
    { app with keys := keys, table := { app.table with flippers := flippers } }
  else app

/-- Lines 425-612: handling of one input event. -/
def handle_input (env : Externals K σ φ) (app : PinballApp K σ φ) (ev : InputEvent) :
    PinballApp K σ φ :=
  if ev.type = InputType.InputTypePress ∨ ev.type = InputType.InputTypeLong ∨
      ev.type = InputType.InputTypeRepeat then
    match ev.key with
    | InputKey.InputKeyBack => press_back env app
    | InputKey.InputKeyRight => press_flipper_key app Side.RIGHT MANUAL_ADJUSTMENT
    | InputKey.InputKeyLeft => press_flipper_key app Side.LEFT (-MANUAL_ADJUSTMENT)
    | InputKey.InputKeyUp => press_up app ev
    | InputKey.InputKeyDown => press_down app
    | InputKey.InputKeyOk => press_ok env app
  else if ev.type = InputType.InputTypeRelease then
    release_key app ev.key
  else app

/-- Lines 623-628: the game-state check that follows `solve`. -/
def check_game_state (app : PinballApp K σ φ) : PinballApp K σ φ :=
  if app.game_mode ≠ GameMode.GM_GameOver ∧ app.table.game_over then
    { app with
      game_mode := GameMode.GM_GameOver,
      log := app.log ++ [Effect.notify_game_over] }
  else app

/-- Lines 425-628: one iteration of the event loop, with the event drained
from the queue, if any, and the frame time `dt`. -/
def loop_body (env : Externals K σ φ) (app : PinballApp K σ φ)
    (ev : Option InputEvent) (dt : K) : PinballApp K σ φ :=
  let app1 := match ev with
    | some e => handle_input env app e
    | none => app
  let app2 := solve env app1 dt
  let app3 := { app2 with
    table := { app2.table with objects := app2.table.objects.map env.step_animation } }
  check_game_state app3

end Input

/-! ## Specification-side definitions -/

section SpecSide

variable {K σ φ : Type} [LinearOrderedField K]

/-- A ball at rest at `(x, y)` with radius `r`. -/
def resting_ball (x y r : K) : Ball K :=
  { p := ⟨x, y⟩, prev_p := ⟨x, y⟩, r := r }

/-- A radius 10 ball at (100,100) moving by (1,2) per step. -/
def falling_ball : Ball K :=
  { p := ⟨100, 100⟩, prev_p := ⟨99, 98⟩, r := 10 }

/-- A radius 10 ball at (100,115) moving by (0,-1) per step. -/
def rising_ball : Ball K :=
  { p := ⟨100, 115⟩, prev_p := ⟨100, 116⟩, r := 10 }

/-- The flippers whose `collide` returns true for a ball handed through the
flipper loop, in loop order, each as `collide` left it. -/
def flipper_hits (env : Externals K σ φ) :
    List (Flipper K φ) → Ball K → List (Flipper K φ)
  | [], _ => []
  | f :: fs, b =>
    let c := env.flipper_collide f b
    if c.1 then c.2.1 :: flipper_hits env fs c.2.2
    else flipper_hits env fs c.2.2

/-- The notification effects of a list of flippers that were hit. -/
def hit_notifications (hits : List (Flipper K φ)) : List Effect :=
  hits.filterMap fun f => f.notification.map Effect.flipper_notification

/-- The value `furi_get_tick()` returns `t` ticks after start: a 32-bit
counter that wraps. -/
def clock32 (t : Nat) : Nat := t % 2 ^ 32

/-- Number of qualifying bumps among Up presses at the given times (in ticks
since start), the last counted bump being at time `last`: a press qualifies
when its time is at least `BUMP_DELAY` after the last counted bump, and is
then the last counted bump. -/
def qualifying_bumps : Nat → List Nat → Nat
  | _, [] => 0
  | last, t :: ts =>
    if last + BUMP_DELAY ≤ t then qualifying_bumps t ts + 1
    else qualifying_bumps last ts

/-- The event of an Up press handled while the tick counter reads `tick`. -/
def up_press (tick : Nat) : InputEvent :=
  { key := InputKey.InputKeyUp, type := InputType.InputTypePress, current_tick := tick }

/-- Handling a sequence of Up presses made at the given times. -/
def up_presses (env : Externals K σ φ) (app : PinballApp K σ φ) (times : List Nat) :
    PinballApp K σ φ :=
  times.foldl (fun a t => handle_input env a (up_press (clock32 t))) app

/-- Fields of the session that agree in two states: everything the sub-step
loop never writes. -/
structure SameOutsidePhysics (a b : PinballApp K σ φ) : Prop where
  game_mode : a.game_mode = b.game_mode
  keys : a.keys = b.keys
  settings : a.settings = b.settings
  table_list : a.table_list = b.table_list
  processing : a.processing = b.processing
  balls_initial : a.table.balls_initial = b.table.balls_initial
  lives : a.table.lives = b.table.lives
  balls_released : a.table.balls_released = b.table.balls_released
  bump_count : a.table.bump_count = b.table.bump_count
  last_bump : a.table.last_bump = b.table.last_bump
  tilt_detect_enabled : a.table.tilt_detect_enabled = b.table.tilt_detect_enabled
  game_over : a.table.game_over = b.table.game_over

/-- The part of the session the bump tracking reads and writes. -/
structure SameBumpState (a b : PinballApp K σ φ) : Prop where
  game_mode : a.game_mode = b.game_mode
  up : a.keys.up = b.keys.up
  bump_count : a.table.bump_count = b.table.bump_count
  last_bump : a.table.last_bump = b.table.last_bump
  tilt_detect_enabled : a.table.tilt_detect_enabled = b.table.tilt_detect_enabled

/-- Whether an event is a Back press, long press or repeat. -/
def is_back_press (ev : InputEvent) : Bool :=
  ev.key = InputKey.InputKeyBack &&
    (ev.type = InputType.InputTypePress || ev.type = InputType.InputTypeLong ||
      ev.type = InputType.InputTypeRepeat)

/-- Dot product of two vectors. -/
def Vec2.dot (a b : Vec2 K) : K := a.x * b.x + a.y * b.y

/-- A vector turned by a quarter turn: a direction perpendicular to it. -/
def Vec2.perp (a : Vec2 K) : Vec2 K := ⟨-a.y, a.x⟩

/-- Implicit velocity of a ball, `p - prev_p`. -/
def Ball.velocity (b : Ball K) : Vec2 K := b.p - b.prev_p

/-- What carries `lives.value >= 0` through `solve`: the lives are not
negative, and a table without lives left has no ball in play. -/
def lives_invariant (t : Table K σ φ) : Prop :=
  0 ≤ t.lives ∧ (t.lives = 0 → t.balls = [])

/-- Session states reachable from a table loaded with `lives.value >= 1` by
calls of `solve`, key events and whole iterations of the event loop. -/
inductive Reachable (env : Externals K σ φ) : PinballApp K σ φ → Prop
  | loaded (app : PinballApp K σ φ) : 1 ≤ app.table.lives → Reachable env app
  | after_solve (app : PinballApp K σ φ) (dt : K) :
      Reachable env app → Reachable env (solve env app dt)
  | after_key (app : PinballApp K σ φ) (ev : InputEvent) :
      Reachable env app → Reachable env (handle_input env app ev)
  | after_frame (app : PinballApp K σ φ) (ev : Option InputEvent) (dt : K) :
      Reachable env app → Reachable env (loop_body env app ev dt)

end SpecSide

/-! ## Concrete inputs -/

/-- A table without balls, objects or flippers. -/
def empty_table : Table ℚ Unit Unit :=
  { balls := [], balls_initial := [], objects := [], flippers := [], score := 0,
    lives := 3, balls_released := false, bump_count := 0, last_bump := 0,
    tilt_detect_enabled := true, game_over := false }

/-- Absent routines for the concrete inputs: `hit` is what every `collide`
returns; objects, flippers and balls are left where they are. -/
def demo_env (hit : Bool) : Externals ℚ Unit Unit :=
  { sqrtf := Rat.sqrt
    accelerate := fun b _ => b
    ball_update := fun b _ => b
    object_collide := fun o b => (hit, o, b)
    reset_animation := fun o => o
    step_animation := fun o => o
    flipper_collide := fun f b => (hit, f, b)
    flipper_update := fun f _ => f
    table_load_table := fun _ _ => (true, empty_table) }

/-- A session around a table, with no key held. -/
def demo_app (mode : GameMode) (table : Table ℚ Unit Unit) : PinballApp ℚ Unit Unit :=
  { table := table, game_mode := mode,
    keys := { up := false, down := false, right := false, left := false },
    settings := { sound_enabled := true, led_enabled := true, vibrate_enabled := true,
                  debug_mode := false, selected_setting := 0, max_settings := 4 },
    table_list := { selected := 0, size := 3 },
    processing := true, log := [] }

/-- A table with one ball below the fall threshold, `lives` lives and the
launch position as initial snapshot. -/
def drained_table (lives : Int) : Table ℚ Unit Unit :=
  { empty_table with
    balls := [resting_ball 100 1400 10],
    balls_initial := [resting_ball 600 1000 10],
    lives := lives }

/-- A table with two balls far apart, the second below the fall threshold. -/
def two_ball_table : Table ℚ Unit Unit :=
  { empty_table with
    balls := [resting_ball 100 100 10, resting_ball 100 1400 10],
    balls_initial := [resting_ball 600 1000 10] }

/-- A table whose last counted bump was at tick `2 ^ 32 - 1000`. -/
def bumped_table : Table ℚ Unit Unit :=
  { empty_table with last_bump := 4294966296 }

/-- A flipper with score and callback `n` (left side, at rest). -/
def demo_flipper (n : Nat) : Flipper ℚ Unit :=
  { side := Side.LEFT, rotation := 0, max_rotation := 1, powered := false,
    score := n, notification := some n, state := () }

/-- A physical object with score and callback `n`. -/
def demo_object (n : Nat) : Object Unit :=
  { physical := true, score := n, notification := some n, state := () }

/-- A table with one ball in play, one scoring object and two flippers. -/
def busy_table : Table ℚ Unit Unit :=
  { empty_table with
    balls := [resting_ball 100 100 10],
    balls_initial := [resting_ball 600 1000 10],
    objects := [demo_object 5],
    flippers := [demo_flipper 10, demo_flipper 20] }

/-! # Properties -/

section Lemmas

variable {K σ φ : Type} [LinearOrderedField K]

/-! ## Vectors and the pair resolution -/

theorem Vec2.sub_x (a b : Vec2 K) : (a - b).x = a.x - b.x := rfl

theorem Vec2.sub_y (a b : Vec2 K) : (a - b).y = a.y - b.y := rfl

theorem Vec2.scale_x (a : Vec2 K) (s : K) : (a * s).x = a.x * s := rfl

theorem Vec2.scale_y (a : Vec2 K) (s : K) : (a * s).y = a.y * s := rfl

omit [LinearOrderedField K] in
theorem Vec2.eq_iff (a b : Vec2 K) : a = b ↔ a.x = b.x ∧ a.y = b.y := by
  cases a; cases b; simp

/-- The pair resolution moves both centres by the same vector: the axis
between them is what it was. -/
theorem collide_pair_axis (sqrtf : K → K) (ball1 ball2 : Ball K) :
    (collide_pair sqrtf ball1 ball2).1.p - (collide_pair sqrtf ball1 ball2).2.p
      = ball1.p - ball2.p := by
  unfold collide_pair
  simp only []
  split
  · rw [Vec2.eq_iff]
    simp only [Vec2.sub_x, Vec2.sub_y, Vec2.scale_x, Vec2.scale_y]
    constructor <;> ring
  · rfl

/-- Where no division has a zero divisor, the checked resolution is the
unchecked one. -/
theorem collide_pair_checked_eq (sqrtf : K → K) (ball1 ball2 : Ball K)
    (r : Ball K × Ball K) (h : collide_pair_checked sqrtf ball1 ball2 = some r) :
    collide_pair sqrtf ball1 ball2 = r := by
  unfold collide_pair_checked at h
  unfold collide_pair
  simp only [] at h ⊢
  split at h
  · rename_i hlt
    rw [if_pos hlt]
    by_cases hd : sqrtf (ball1.p - ball2.p).mag2 = 0
    · simp [checked_div, hd] at h
    · by_cases hd2 : (ball1.p - ball2.p).mag2 = 0
      · simp [checked_div, hd, hd2] at h
      · simp only [checked_div, hd, hd2, if_false, Option.some_bind, Option.some.injEq] at h
        exact h
  · rename_i hlt
    rw [if_neg hlt]
    exact Option.some.inj h

/-- Coincident centres with a positive radius sum: the first division is
evaluated with divisor zero. -/
theorem collide_pair_checked_coincident (sqrtf : K → K) (hs : sqrtf 0 = 0)
    (ball1 ball2 : Ball K) (hp : ball1.p = ball2.p) (hr : 0 < ball1.r + ball2.r) :
    collide_pair_checked sqrtf ball1 ball2 = none := by
  have hd : (ball1.p - ball2.p).mag2 = 0 := by
    rw [hp]; simp [Vec2.mag2, Vec2.sub_x, Vec2.sub_y]
  unfold collide_pair_checked
  simp only [hd, hs]
  rw [if_pos hr]
  simp [checked_div]

/-! ## What the sub-steps leave alone -/

theorem sub_step_same (env : Externals K σ φ) (pb : PinballApp K σ φ) (sub_dt : K) :
    SameOutsidePhysics (sub_step env pb sub_dt) pb :=
  ⟨rfl, rfl, rfl, rfl, rfl, rfl, rfl, rfl, rfl, rfl, rfl, rfl⟩

theorem sub_steps_same (env : Externals K σ φ) (n : Nat) (pb : PinballApp K σ φ)
    (sub_dt : K) : SameOutsidePhysics (sub_steps env n pb sub_dt) pb := by
  induction n generalizing pb with
  | zero => exact ⟨rfl, rfl, rfl, rfl, rfl, rfl, rfl, rfl, rfl, rfl, rfl, rfl⟩
  | succ n ih =>
    have h1 := ih (sub_step env pb sub_dt)
    have h2 := sub_step_same env pb sub_dt
    exact ⟨h1.1.trans h2.1, h1.2.trans h2.2, h1.3.trans h2.3, h1.4.trans h2.4,
      h1.5.trans h2.5, h1.6.trans h2.6, h1.7.trans h2.7, h1.8.trans h2.8,
      h1.9.trans h2.9, h1.10.trans h2.10, h1.11.trans h2.11, h1.12.trans h2.12⟩

theorem run_sub_steps_same (env : Externals K σ φ) (pb : PinballApp K σ φ) (dt : K) :
    SameOutsidePhysics (run_sub_steps env pb dt) pb :=
  sub_steps_same env PHYSICS_SUB_STEPS pb _

/-! ## The erase loop -/

theorem fall_threshold : (1280 + 100 : K) = 1380 := by norm_num

theorem erase_fallen_balls (balls : List (Ball K)) (n : Nat) (log : List Effect) :
    (erase_fallen balls n log).1 = balls.filter fun b => decide (b.p.y ≤ 1380) := by
  induction balls generalizing n log with
  | nil => rfl
  | cons b rest ih =>
    unfold erase_fallen
    by_cases h : (1280 + 100 : K) < b.p.y
    · rw [if_pos h, ih]
      rw [fall_threshold] at h
      rw [List.filter_cons_of_neg (by simpa using h)]
    · rw [if_neg h]
      rw [fall_threshold] at h
      simp only [ih]
      rw [List.filter_cons_of_pos (by simpa using h)]

theorem erase_fallen_all (balls : List (Ball K)) (n : Nat) (log : List Effect)
    (h : ∀ b ∈ balls, (1380 : K) < b.p.y) :
    erase_fallen balls n log =
      ([], n - balls.length, log ++ List.replicate balls.length Effect.notify_lost_life) := by
  induction balls generalizing n log with
  | nil => simp [erase_fallen]
  | cons b rest ih =>
    have hb : (1280 + 100 : K) < b.p.y := by
      rw [fall_threshold]; exact h b (List.mem_cons_self _ _)
    unfold erase_fallen
    rw [if_pos hb, ih _ _ (fun c hc => h c (List.mem_cons_of_mem _ hc))]
    simp only [List.length_cons, List.replicate_succ, List.append_assoc, List.singleton_append,
      Prod.mk.injEq, true_and]
    exact ⟨by omega, trivial⟩

theorem erase_fallen_count (balls : List (Ball K)) (n : Nat) (log : List Effect) :
    (erase_fallen balls n log).2.1 = n - (balls.length - (erase_fallen balls n log).1.length) ∧
    (erase_fallen balls n log).2.2 =
      log ++ List.replicate (balls.length - (erase_fallen balls n log).1.length)
        Effect.notify_lost_life ∧
    (erase_fallen balls n log).1.length ≤ balls.length := by
  induction balls generalizing n log with
  | nil => simp [erase_fallen]
  | cons b rest ih =>
    unfold erase_fallen
    by_cases h : (1280 + 100 : K) < b.p.y
    · rw [if_pos h]
      obtain ⟨h1, h2, h3⟩ := ih (n - 1) (log ++ [Effect.notify_lost_life])
      refine ⟨?_, ?_, ?_⟩
      · rw [h1]; simp only [List.length_cons]; omega
      · rw [h2]
        have e : (b :: rest).length - (erase_fallen rest (n - 1)
            (log ++ [Effect.notify_lost_life])).1.length
            = (rest.length - (erase_fallen rest (n - 1)
            (log ++ [Effect.notify_lost_life])).1.length) + 1 := by
          simp only [List.length_cons]; omega
        rw [e, List.replicate_succ]
        simp
      · simp only [List.length_cons]; omega
    · rw [if_neg h]
      obtain ⟨h1, h2, h3⟩ := ih n log
      refine ⟨?_, ?_, ?_⟩
      · simp only [List.length_cons]; rw [h1]; omega
      · simp only [List.length_cons]; rw [h2]
        congr 2
        omega
      · simp only [List.length_cons]; omega

/-- The erase loop keeps a ball that has not fallen, so `num_in_play` stays
positive. -/
theorem erase_fallen_survivor (balls : List (Ball K)) (log : List Effect)
    (h : ∃ b ∈ balls, b.p.y ≤ (1380 : K)) :
    (erase_fallen balls balls.length log).2.1 ≠ 0 := by
  obtain ⟨b, hb, hy⟩ := h
  have hmem : b ∈ (erase_fallen balls balls.length log).1 := by
    rw [erase_fallen_balls]
    exact List.mem_filter.mpr ⟨hb, by simpa using hy⟩
  have hpos : 0 < (erase_fallen balls balls.length log).1.length :=
    List.length_pos_of_mem hmem
  obtain ⟨h1, -, h3⟩ := erase_fallen_count balls balls.length log
  rw [h1]
  omega

/-! ## The three outcomes of the bookkeeping -/

theorem life_bookkeeping_empty (pb : PinballApp K σ φ) (h : pb.table.balls = []) :
    life_bookkeeping pb = pb := by
  unfold life_bookkeeping
  simp [h]

theorem life_bookkeeping_all_fallen (pb : PinballApp K σ φ) (hne : pb.table.balls ≠ [])
    (h : ∀ b ∈ pb.table.balls, (1380 : K) < b.p.y) :
    life_bookkeeping pb =
      if pb.table.lives - 1 > 0 then
        { pb with
          table := { pb.table with
            balls := pb.table.balls_initial, balls_released := false,
            lives := pb.table.lives - 1 },
          game_mode :=
            if pb.game_mode = GameMode.GM_Tilted then GameMode.GM_Playing
            else pb.game_mode,
          log := pb.log ++ List.replicate pb.table.balls.length Effect.notify_lost_life }
      else
        { pb with
          table := { pb.table with
            balls := [], balls_released := false, lives := pb.table.lives - 1,
            game_over := true },
          log := pb.log ++ List.replicate pb.table.balls.length Effect.notify_lost_life } := by
  have hlen : pb.table.balls.length ≠ 0 := by
    intro h0; exact hne (List.length_eq_zero.mp h0)
  unfold life_bookkeeping
  rw [if_pos hlen]
  simp only [erase_fallen_all pb.table.balls _ pb.log h, Nat.sub_self, if_true]

theorem life_bookkeeping_survivor (pb : PinballApp K σ φ)
    (h : ∃ b ∈ pb.table.balls, b.p.y ≤ (1380 : K)) :
    life_bookkeeping pb =
      { pb with
        table := { pb.table with
          balls := pb.table.balls.filter fun b => decide (b.p.y ≤ 1380) },
        log := pb.log ++ List.replicate
          (pb.table.balls.length -
            (pb.table.balls.filter fun b => decide (b.p.y ≤ 1380)).length)
          Effect.notify_lost_life } := by
  have hlen : pb.table.balls.length ≠ 0 := by
    obtain ⟨b, hb, -⟩ := h
    exact Nat.pos_iff_ne_zero.mp (List.length_pos_of_mem hb)
  unfold life_bookkeeping
  rw [if_pos hlen]
  simp only []
  rw [if_neg (erase_fallen_survivor pb.table.balls pb.log h)]
  rw [(erase_fallen_count pb.table.balls pb.table.balls.length pb.log).2.1]
  rw [erase_fallen_balls]

end Lemmas

section Bookkeeping

variable {K σ φ : Type} [LinearOrderedField K]

/-- C1, as stated, fails on the last life: with `lives.value = 1` (which is
`> 0` before the decrement) and the only ball fallen, `solve` leaves the ball
collection empty, not equal to `balls_initial`. -/
theorem respawn_fails_on_last_life :
    (run_sub_steps (demo_env false)
      (demo_app GameMode.GM_Playing (drained_table 1)) 0).table.balls ≠ [] ∧
    (∀ b ∈ (run_sub_steps (demo_env false)
      (demo_app GameMode.GM_Playing (drained_table 1)) 0).table.balls, (1380 : ℚ) < b.p.y) ∧
    0 < (demo_app GameMode.GM_Playing (drained_table 1)).table.lives ∧
    (solve (demo_env false) (demo_app GameMode.GM_Playing (drained_table 1)) 0).table.balls
      ≠ (demo_app GameMode.GM_Playing (drained_table 1)).table.balls_initial := by
  refine ⟨by decide, by decide, by decide, ?_⟩
  unfold solve
  rw [life_bookkeeping_all_fallen _ (by decide) (by decide), if_neg (by decide)]
  decide

/-- C1 (amended): when every ball is removed as fallen (the collection is
non-empty when the bookkeeping starts and every ball has `p.y > 1380`) and
`lives.value > 1` before the decrement, so that lives remain after it, then
after `solve` the ball collection equals `balls_initial` and `balls_released`
is false. -/
theorem respawn_when_lives_remain (env : Externals K σ φ) (pb : PinballApp K σ φ) (dt : K)
    (hne : (run_sub_steps env pb dt).table.balls ≠ [])
    (hall : ∀ b ∈ (run_sub_steps env pb dt).table.balls, (1380 : K) < b.p.y)
    (hl : 1 < pb.table.lives) :
    (solve env pb dt).table.balls = pb.table.balls_initial ∧
    (solve env pb dt).table.balls_released = false := by
  have hs := run_sub_steps_same env pb dt
  have hpos : (run_sub_steps env pb dt).table.lives - 1 > 0 := by
    rw [hs.lives]; omega
  unfold solve
  rw [life_bookkeeping_all_fallen _ hne hall, if_pos hpos]
  exact ⟨hs.balls_initial, rfl⟩

/-- Witness of C1 (amended): three lives, the only ball fallen. -/
theorem respawn_when_lives_remain_witness :
    (run_sub_steps (demo_env false)
      (demo_app GameMode.GM_Playing (drained_table 3)) 0).table.balls ≠ [] ∧
    (∀ b ∈ (run_sub_steps (demo_env false)
      (demo_app GameMode.GM_Playing (drained_table 3)) 0).table.balls, (1380 : ℚ) < b.p.y) ∧
    1 < (demo_app GameMode.GM_Playing (drained_table 3)).table.lives ∧
    (solve (demo_env false) (demo_app GameMode.GM_Playing (drained_table 3)) 0).table.balls
      = [resting_ball 600 1000 10] ∧
    (solve (demo_env false)
      (demo_app GameMode.GM_Playing (drained_table 3)) 0).table.balls_released = false :=
  ⟨by decide, by decide, by decide,
    respawn_when_lives_remain (demo_env false)
      (demo_app GameMode.GM_Playing (drained_table 3)) 0
      (by decide) (by decide) (by decide)⟩

/-- C2: with `lives.value = 1` and a non-empty ball collection in which every
ball has `p.y > 1380` when the bookkeeping runs, after `solve` the lives are
0, `game_over` is true, `balls_released` is false and the ball collection is
empty. -/
theorem last_life_lost (env : Externals K σ φ) (pb : PinballApp K σ φ) (dt : K)
    (hl : pb.table.lives = 1)
    (hne : (run_sub_steps env pb dt).table.balls ≠ [])
    (hall : ∀ b ∈ (run_sub_steps env pb dt).table.balls, (1380 : K) < b.p.y) :
    (solve env pb dt).table.lives = 0 ∧
    (solve env pb dt).table.game_over = true ∧
    (solve env pb dt).table.balls_released = false ∧
    (solve env pb dt).table.balls = [] := by
  have hs := run_sub_steps_same env pb dt
  have hlives : (run_sub_steps env pb dt).table.lives = 1 := by rw [hs.lives, hl]
  have hnot : ¬ ((run_sub_steps env pb dt).table.lives - 1 > 0) := by
    rw [hlives]; decide
  unfold solve
  rw [life_bookkeeping_all_fallen _ hne hall, if_neg hnot]
  exact ⟨by simp [hlives], rfl, rfl, rfl⟩

/-- Witness of C2: one life, the only ball at `y = 1400`. -/
theorem last_life_lost_witness :
    (demo_app GameMode.GM_Playing (drained_table 1)).table.lives = 1 ∧
    (run_sub_steps (demo_env false)
      (demo_app GameMode.GM_Playing (drained_table 1)) 0).table.balls ≠ [] ∧
    (∀ b ∈ (run_sub_steps (demo_env false)
      (demo_app GameMode.GM_Playing (drained_table 1)) 0).table.balls, (1380 : ℚ) < b.p.y) ∧
    (solve (demo_env false) (demo_app GameMode.GM_Playing (drained_table 1)) 0).table.lives
      = 0 ∧
    (solve (demo_env false)
      (demo_app GameMode.GM_Playing (drained_table 1)) 0).table.game_over = true ∧
    (solve (demo_env false)
      (demo_app GameMode.GM_Playing (drained_table 1)) 0).table.balls_released = false ∧
    (solve (demo_env false) (demo_app GameMode.GM_Playing (drained_table 1)) 0).table.balls
      = [] :=
  ⟨by decide, by decide, by decide,
    last_life_lost (demo_env false) (demo_app GameMode.GM_Playing (drained_table 1)) 0
      (by decide) (by decide) (by decide)⟩

/-- C7: when at least one ball has `p.y <= 1380` as the bookkeeping starts,
the ball collection after `solve` is the sub-sequence of those balls, in
their order, one lost-life notification is logged per removed ball, and
`lives.value`, `balls_released`, `game_over` and `game_mode` are what they
were before `solve`. -/
theorem fallen_balls_removed (env : Externals K σ φ) (pb : PinballApp K σ φ) (dt : K)
    (h : ∃ b ∈ (run_sub_steps env pb dt).table.balls, b.p.y ≤ (1380 : K)) :
    (solve env pb dt).table.balls =
      ((run_sub_steps env pb dt).table.balls.filter fun b => decide (b.p.y ≤ 1380)) ∧
    (solve env pb dt).log =
      (run_sub_steps env pb dt).log ++
        List.replicate
          ((run_sub_steps env pb dt).table.balls.length -
            (solve env pb dt).table.balls.length)
          Effect.notify_lost_life ∧
    (solve env pb dt).table.lives = pb.table.lives ∧
    (solve env pb dt).table.balls_released = pb.table.balls_released ∧
    (solve env pb dt).table.game_over = pb.table.game_over ∧
    (solve env pb dt).game_mode = pb.game_mode := by
  have hs := run_sub_steps_same env pb dt
  unfold solve
  rw [life_bookkeeping_survivor _ h]
  exact ⟨rfl, rfl, hs.lives, hs.balls_released, hs.game_over, hs.game_mode⟩

end Bookkeeping

section Modes

variable {K σ φ : Type} [LinearOrderedField K]

theorem solve_game_over (env : Externals K σ φ) (pb : PinballApp K σ φ) (dt : K)
    (h : pb.table.game_over = true) : (solve env pb dt).table.game_over = true := by
  have hs := run_sub_steps_same env pb dt
  have hmid : (run_sub_steps env pb dt).table.game_over = true := by rw [hs.game_over, h]
  unfold solve life_bookkeeping
  simp only []
  split
  · split
    · split
      · exact hmid
      · rfl
    · exact hmid
  · exact hmid

omit [LinearOrderedField K] in
theorem check_game_state_mode (app : PinballApp K σ φ) (h : app.table.game_over = true) :
    (check_game_state app).game_mode = GameMode.GM_GameOver := by
  unfold check_game_state
  by_cases hm : app.game_mode = GameMode.GM_GameOver
  · simp [hm]
  · simp [hm, h]

theorem solves_game_over (env : Externals K σ φ) (dts : List K) (pb : PinballApp K σ φ)
    (h : pb.table.game_over = true) :
    (dts.foldl (solve env) pb).table.game_over = true := by
  induction dts generalizing pb with
  | nil => exact h
  | cons d ds ih => exact ih (solve env pb d) (solve_game_over env pb d h)

/-- C6: once `game_over` is true, every call to `solve`, and every sequence of
calls with any frame times, returns with `game_over` true; and the check that
follows `solve` leaves `game_mode = GM_GameOver` whatever the mode was. -/
theorem game_over_terminal (env : Externals K σ φ) (pb : PinballApp K σ φ) (dt : K)
    (h : pb.table.game_over = true) :
    (solve env pb dt).table.game_over = true ∧
    (∀ dts : List K, (dts.foldl (solve env) pb).table.game_over = true) ∧
    (check_game_state pb).game_mode = GameMode.GM_GameOver ∧
    (check_game_state (solve env pb dt)).game_mode = GameMode.GM_GameOver ∧
    (loop_body env pb none dt).game_mode = GameMode.GM_GameOver ∧
    (loop_body env pb none dt).table.game_over = true := by
  have h1 := solve_game_over env pb dt h
  refine ⟨h1, fun dts => solves_game_over env dts pb h, check_game_state_mode pb h,
    check_game_state_mode _ h1, ?_, ?_⟩
  · unfold loop_body
    exact check_game_state_mode _ h1
  · unfold loop_body check_game_state
    simp only []
    split
    · exact h1
    · exact h1

/-- Witness of C6: a table that is already over, in mode Tilted. -/
theorem game_over_terminal_witness :
    (demo_app GameMode.GM_Tilted { busy_table with game_over := true }).table.game_over = true ∧
    (solve (demo_env true)
      (demo_app GameMode.GM_Tilted { busy_table with game_over := true }) 1).table.game_over
        = true ∧
    (check_game_state (solve (demo_env true)
      (demo_app GameMode.GM_Tilted { busy_table with game_over := true }) 1)).game_mode
        = GameMode.GM_GameOver :=
  ⟨rfl,
    (game_over_terminal (demo_env true)
      (demo_app GameMode.GM_Tilted { busy_table with game_over := true }) 1 rfl).1,
    (game_over_terminal (demo_env true)
      (demo_app GameMode.GM_Tilted { busy_table with game_over := true }) 1 rfl).2.2.2.1⟩

omit [LinearOrderedField K] in
theorem load_table_game_mode (env : Externals K σ φ) (app : PinballApp K σ φ)
    (id : TableId) : (load_table env app id).2.game_mode = app.game_mode := rfl

/-- A key event handled in mode Tilted: Back (press, long, repeat) selects
the table menu, anything else keeps the mode. -/
theorem handle_input_tilted (env : Externals K σ φ) (app : PinballApp K σ φ)
    (ev : InputEvent) (ht : app.game_mode = GameMode.GM_Tilted) :
    (handle_input env app ev).game_mode =
      if is_back_press ev then GameMode.GM_TableSelect else GameMode.GM_Tilted := by
  obtain ⟨key, type, tick⟩ := ev
  cases key <;> cases type <;>
    simp [handle_input, is_back_press, press_back, press_flipper_key, press_up, press_down,
      press_ok, release_key, load_table, ht]

/-- The two outcomes of `solve` started in mode Tilted. -/
theorem solve_tilted_cases (env : Externals K σ φ) (pb : PinballApp K σ φ) (dt : K)
    (ht : pb.game_mode = GameMode.GM_Tilted) :
    (((run_sub_steps env pb dt).table.balls ≠ [] ∧
       (∀ b ∈ (run_sub_steps env pb dt).table.balls, (1380 : K) < b.p.y) ∧
       0 < pb.table.lives - 1) ∧
      (solve env pb dt).game_mode = GameMode.GM_Playing ∧
      (solve env pb dt).table.balls = pb.table.balls_initial) ∨
    (¬ ((run_sub_steps env pb dt).table.balls ≠ [] ∧
       (∀ b ∈ (run_sub_steps env pb dt).table.balls, (1380 : K) < b.p.y) ∧
       0 < pb.table.lives - 1) ∧
      (solve env pb dt).game_mode = GameMode.GM_Tilted) := by
  have hs := run_sub_steps_same env pb dt
  have hmode : (run_sub_steps env pb dt).game_mode = GameMode.GM_Tilted := by
    rw [hs.game_mode, ht]
  by_cases hne : (run_sub_steps env pb dt).table.balls = []
  · right
    refine ⟨fun hc => hc.1 hne, ?_⟩
    unfold solve
    rw [life_bookkeeping_empty _ hne, hmode]
  · by_cases hall : ∀ b ∈ (run_sub_steps env pb dt).table.balls, (1380 : K) < b.p.y
    · by_cases hl : (run_sub_steps env pb dt).table.lives - 1 > 0
      · left
        have hl2 : 0 < pb.table.lives - 1 := by rw [← hs.lives]; exact hl
        refine ⟨⟨hne, hall, hl2⟩, ?_, ?_⟩
        · unfold solve
          rw [life_bookkeeping_all_fallen _ hne hall, if_pos hl]
          simp only [hmode, if_true]
        · unfold solve
          rw [life_bookkeeping_all_fallen _ hne hall, if_pos hl]
          exact hs.balls_initial
      · right
        have hl2 : ¬ 0 < pb.table.lives - 1 := by rw [← hs.lives]; exact hl
        refine ⟨fun hc => hl2 hc.2.2, ?_⟩
        unfold solve
        rw [life_bookkeeping_all_fallen _ hne hall, if_neg hl]
        exact hmode
    · right
      refine ⟨fun hc => hall hc.2.1, ?_⟩
      have hsurv : ∃ b ∈ (run_sub_steps env pb dt).table.balls, b.p.y ≤ (1380 : K) := by
        by_contra hcon
        apply hall
        intro b hb
        by_contra hlt
        exact hcon ⟨b, hb, not_lt.mp hlt⟩
      unfold solve
      rw [life_bookkeeping_survivor _ hsurv]
      exact hmode

/-- C9: a call to `solve` that starts in mode Tilted returns in mode Playing
exactly when every ball was removed as fallen (the collection was non-empty
when the bookkeeping started and every ball had `p.y > 1380`) and lives
remain after the decrement; the balls are then those of `balls_initial`, and
otherwise the mode is still Tilted.  A key event handled in mode Tilted
leaves the mode Tilted, except Back, which selects the table menu. -/
theorem tilted_until_ball_lost (env : Externals K σ φ) (pb : PinballApp K σ φ) (dt : K)
    (ht : pb.game_mode = GameMode.GM_Tilted) :
    ((solve env pb dt).game_mode = GameMode.GM_Playing ↔
      ((run_sub_steps env pb dt).table.balls ≠ [] ∧
       (∀ b ∈ (run_sub_steps env pb dt).table.balls, (1380 : K) < b.p.y) ∧
       0 < pb.table.lives - 1)) ∧
    ((solve env pb dt).game_mode = GameMode.GM_Playing →
      (solve env pb dt).table.balls = pb.table.balls_initial) ∧
    ((solve env pb dt).game_mode ≠ GameMode.GM_Playing →
      (solve env pb dt).game_mode = GameMode.GM_Tilted) ∧
    (∀ ev : InputEvent,
      (handle_input env pb ev).game_mode =
        if is_back_press ev then GameMode.GM_TableSelect else GameMode.GM_Tilted) := by
  refine ⟨?_, ?_, ?_, fun ev => handle_input_tilted env pb ev ht⟩
  · rcases solve_tilted_cases env pb dt ht with ⟨hc, hm, -⟩ | ⟨hc, hm⟩
    · exact ⟨fun _ => hc, fun _ => hm⟩
    · refine ⟨fun hp => ?_, fun h => absurd h hc⟩
      rw [hm] at hp
      exact absurd hp (by decide)
  · rcases solve_tilted_cases env pb dt ht with ⟨-, -, hb⟩ | ⟨-, hm⟩
    · exact fun _ => hb
    · intro hp
      rw [hm] at hp
      exact absurd hp (by decide)
  · rcases solve_tilted_cases env pb dt ht with ⟨-, hm, -⟩ | ⟨-, hm⟩
    · exact fun hn => absurd hm hn
    · exact fun _ => hm

/-- Witness of C9: tilted, three lives, the only ball fallen. -/
theorem tilted_until_ball_lost_witness :
    (demo_app GameMode.GM_Tilted (drained_table 3)).game_mode = GameMode.GM_Tilted ∧
    ((solve (demo_env false) (demo_app GameMode.GM_Tilted (drained_table 3)) 0).game_mode
        = GameMode.GM_Playing ↔
      ((run_sub_steps (demo_env false)
          (demo_app GameMode.GM_Tilted (drained_table 3)) 0).table.balls ≠ [] ∧
       (∀ b ∈ (run_sub_steps (demo_env false)
          (demo_app GameMode.GM_Tilted (drained_table 3)) 0).table.balls, (1380 : ℚ) < b.p.y) ∧
       0 < (demo_app GameMode.GM_Tilted (drained_table 3)).table.lives - 1)) :=
  ⟨rfl,
    (tilted_until_ball_lost (demo_env false)
      (demo_app GameMode.GM_Tilted (drained_table 3)) 0 rfl).1⟩

end Modes

section Scoring

variable {K σ φ : Type} [LinearOrderedField K]

/-! ## The collision stage in mode Tilted -/

end Scoring

section FlipperLoop

variable {K σ φ : Type}

/-! ## The flipper loop outside mode Tilted -/

theorem fire_flipper_eq (n : Option Nat) (log : List Effect) :
    fire_flipper n log = log ++ (n.map Effect.flipper_notification).toList := by
  cases n <;> simp [fire_flipper]

/-- C10, as stated, fails: in mode Playing, with `collide` returning true for
both flippers, the flipper loop for one ball adds the scores of both (10 and
20) and fires both callbacks; so does a whole sub-step. -/
theorem two_flippers_both_recorded :
    (collide_flippers (demo_env true) GameMode.GM_Playing [demo_flipper 10, demo_flipper 20]
      (resting_ball 100 100 10) 0 []).score = 30 ∧
    (collide_flippers (demo_env true) GameMode.GM_Playing [demo_flipper 10, demo_flipper 20]
      (resting_ball 100 100 10) 0 []).log
        = [Effect.flipper_notification 10, Effect.flipper_notification 20] ∧
    (sub_step (demo_env true) (demo_app GameMode.GM_Playing busy_table) 0).table.balls.length
      = 1 ∧
    (sub_step (demo_env true) (demo_app GameMode.GM_Playing busy_table) 0).table.score
      = (demo_app GameMode.GM_Playing busy_table).table.score + 5 + (10 + 20) ∧
    (sub_step (demo_env true) (demo_app GameMode.GM_Playing busy_table) 0).log
      = [Effect.object_notification 5, Effect.reset_animation,
         Effect.flipper_notification 10, Effect.flipper_notification 20] := by
  refine ⟨by decide, by decide, by decide, by decide, by decide⟩

/-- C10 (amended): in a mode other than Tilted, the flipper loop for one ball
records every flipper whose `collide` returns true: `score.value` grows by
the sum of the scores of all of them, and the callback of each one that has
a callback fires, in loop order. -/
theorem every_flipper_hit_recorded (env : Externals K σ φ) (game_mode : GameMode)
    (flippers : List (Flipper K φ)) (b : Ball K) (score : Int) (log : List Effect)
    (hm : game_mode ≠ GameMode.GM_Tilted) :
    (collide_flippers env game_mode flippers b score log).score
      = score + ((flipper_hits env flippers b).map fun f => f.score).sum ∧
    (collide_flippers env game_mode flippers b score log).log
      = log ++ hit_notifications (flipper_hits env flippers b) := by
  induction flippers generalizing b score log with
  | nil => simp [collide_flippers, flipper_hits, hit_notifications]
  | cons f fs ih =>
    unfold collide_flippers flipper_hits
    by_cases hc : (env.flipper_collide f b).1 = true
    · simp only [hc, if_true, if_neg hm]
      obtain ⟨h1, h2⟩ := ih (env.flipper_collide f b).2.2
        (score + (env.flipper_collide f b).2.1.score)
        (fire_flipper (env.flipper_collide f b).2.1.notification log)
      refine ⟨?_, ?_⟩
      · rw [h1]; simp only [List.map_cons, List.sum_cons]; ring
      · rw [h2, fire_flipper_eq]
        cases hn : (env.flipper_collide f b).2.1.notification <;>
          simp [hit_notifications, hn]
    · simp only [Bool.not_eq_true] at hc
      simp only [hc, Bool.false_eq_true, if_false]
      exact ih (env.flipper_collide f b).2.2 score log

/-- Witness of C10 (amended): mode Playing, two flippers, both hit. -/
theorem every_flipper_hit_recorded_witness :
    GameMode.GM_Playing ≠ GameMode.GM_Tilted ∧
    (collide_flippers (demo_env true) GameMode.GM_Playing [demo_flipper 10, demo_flipper 20]
      (resting_ball 100 100 10) 0 []).score
      = 0 + ((flipper_hits (demo_env true) [demo_flipper 10, demo_flipper 20]
          (resting_ball 100 100 10)).map fun f => f.score).sum ∧
    (flipper_hits (demo_env true) [demo_flipper 10, demo_flipper 20]
      (resting_ball 100 100 10)).length = 2 :=
  ⟨by decide,
    (every_flipper_hit_recorded (demo_env true) GameMode.GM_Playing
      [demo_flipper 10, demo_flipper 20] (resting_ball 100 100 10) 0 [] (by decide)).1,
    by decide⟩

end FlipperLoop

section Tilt

variable {K σ φ : Type} [LinearOrderedField K]

/-- On the wrapping clock, the subtraction of line 497 is the elapsed time, as
long as less than one period has elapsed. -/
theorem tick_sub_clock32 (t last : Nat) (h : last ≤ t) (ht : t < last + 2 ^ 32) :
    tick_sub (clock32 t) (clock32 last) = t - last := by
  unfold tick_sub clock32
  omega

/-- An Up press in mode Playing is the bump tracking, up to the debug
adjustment of the first ball. -/
theorem up_press_playing (env : Externals K σ φ) (app : PinballApp K σ φ) (tick : Nat)
    (hm : app.game_mode = GameMode.GM_Playing) :
    SameBumpState (handle_input env app (up_press tick)) (track_bump app tick) := by
  simp only [handle_input, up_press, true_or, if_true, press_up, hm]
  split <;> exact ⟨rfl, rfl, rfl, rfl, rfl⟩

/-- An Up press in any other mode leaves the bump state alone. -/
theorem up_press_elsewhere (env : Externals K σ φ) (app : PinballApp K σ φ) (tick : Nat)
    (hm : app.game_mode ≠ GameMode.GM_Playing) :
    SameBumpState (handle_input env app (up_press tick)) app := by
  simp only [handle_input, up_press, true_or, if_true, press_up]
  cases h : app.game_mode
  · exact ⟨by simp [h], rfl, rfl, rfl, rfl⟩
  · exact absurd h hm
  · simp only []
    split <;> exact ⟨by simp [h], rfl, rfl, rfl, rfl⟩
  · exact ⟨by simp [h], rfl, rfl, rfl, rfl⟩
  · exact ⟨by simp [h], rfl, rfl, rfl, rfl⟩
  · exact ⟨by simp [h], rfl, rfl, rfl, rfl⟩

omit [LinearOrderedField K] in
/-- A press that comes less than `BUMP_DELAY` after the last counted bump is
not tracked. -/
theorem track_bump_early (app : PinballApp K σ φ) (t last : Nat)
    (hl : app.table.last_bump = clock32 last)
    (h1 : last ≤ t) (h2 : t < last + BUMP_DELAY) :
    track_bump app (clock32 t) = app := by
  have h3 : t < last + 2 ^ 32 := by unfold BUMP_DELAY at h2; omega
  unfold track_bump
  rw [hl, tick_sub_clock32 t last h1 h3, if_neg (by omega)]

/-- An Up press less than `BUMP_DELAY` after the last counted bump, in any
mode. -/
theorem up_press_early (env : Externals K σ φ) (app : PinballApp K σ φ) (t last : Nat)
    (hl : app.table.last_bump = clock32 last)
    (h1 : last ≤ t) (h2 : t < last + BUMP_DELAY) :
    SameBumpState (handle_input env app (up_press (clock32 t))) app := by
  by_cases hm : app.game_mode = GameMode.GM_Playing
  · have h := up_press_playing env app (clock32 t) hm
    rw [track_bump_early app t last hl h1 h2] at h
    exact h
  · exact up_press_elsewhere env app (clock32 t) hm

theorem up_presses_tilted (env : Externals K σ φ) (times : List Nat)
    (app : PinballApp K σ φ) (hm : app.game_mode = GameMode.GM_Tilted) :
    (up_presses env app times).game_mode = GameMode.GM_Tilted := by
  induction times generalizing app with
  | nil => exact hm
  | cons t ts ih =>
    have h := up_press_elsewhere env app (clock32 t) (by rw [hm]; decide)
    exact ih _ (h.game_mode.trans hm)

omit [LinearOrderedField K] in
/-- A qualifying bump below the limit is counted and the mode kept. -/
theorem track_bump_counted (app : PinballApp K σ φ) (tick : Nat)
    (hq : BUMP_DELAY ≤ tick_sub tick app.table.last_bump)
    (hc : app.table.bump_count + 1 < BUMP_MAX) :
    (track_bump app tick).game_mode = app.game_mode ∧
    (track_bump app tick).table.bump_count = app.table.bump_count + 1 ∧
    (track_bump app tick).table.last_bump = tick ∧
    (track_bump app tick).table.tilt_detect_enabled = app.table.tilt_detect_enabled ∧
    (track_bump app tick).keys.up = true := by
  unfold track_bump
  rw [if_pos hq]
  simp only [hc, decide_True, Bool.or_true, if_true, and_self]

omit [LinearOrderedField K] in
/-- A qualifying bump that reaches the limit, with tilt detection on, tilts
the table. -/
theorem track_bump_tilts (app : PinballApp K σ φ) (tick : Nat)
    (hq : BUMP_DELAY ≤ tick_sub tick app.table.last_bump)
    (ht : app.table.tilt_detect_enabled = true)
    (hc : ¬ app.table.bump_count + 1 < BUMP_MAX) :
    (track_bump app tick).game_mode = GameMode.GM_Tilted ∧
    (track_bump app tick).table.bump_count = 0 := by
  unfold track_bump
  rw [if_pos hq]
  simp only [ht, hc, Bool.not_true, decide_False, Bool.or_false, Bool.false_eq_true, if_false,
    and_self]

/-- Mode after a sequence of Up presses, from mode Playing with tilt detection
on, `c < BUMP_MAX` bumps counted and the last of them at time `last`. -/
theorem up_presses_mode (env : Externals K σ φ) (times : List Nat)
    (app : PinballApp K σ φ) (c : Int) (last : Nat)
    (hm : app.game_mode = GameMode.GM_Playing)
    (ht : app.table.tilt_detect_enabled = true)
    (hc : app.table.bump_count = c) (hc3 : c < 3)
    (hl : app.table.last_bump = clock32 last)
    (hs : (last :: times).Sorted (· ≤ ·))
    (hb : ∀ t ∈ times, t < last + 2 ^ 32) :
    (up_presses env app times).game_mode =
      if 3 ≤ c + (qualifying_bumps last times : Int) then GameMode.GM_Tilted
      else GameMode.GM_Playing := by
  induction times generalizing app c last with
  | nil =>
    simp only [up_presses, List.foldl_nil, qualifying_bumps, Nat.cast_zero, add_zero]
    rw [if_neg (by omega)]
    exact hm
  | cons t ts ih =>
    have hlt : last ≤ t := List.rel_of_sorted_cons hs t (List.mem_cons_self _ _)
    have htb : t < last + 2 ^ 32 := hb t (List.mem_cons_self _ _)
    have hts : (t :: ts).Sorted (· ≤ ·) := List.Sorted.of_cons hs
    have hlts : (last :: ts).Sorted (· ≤ ·) := by
      refine List.sorted_cons.mpr ⟨fun x hx => ?_, List.Sorted.of_cons hts⟩
      exact List.rel_of_sorted_cons hs x (List.mem_cons_of_mem _ hx)
    have hbts : ∀ x ∈ ts, x < last + 2 ^ 32 := fun x hx => hb x (List.mem_cons_of_mem _ hx)
    have hbts2 : ∀ x ∈ ts, x < t + 2 ^ 32 := fun x hx => by
      have := hbts x hx
      omega
    have hstep := up_press_playing env app (clock32 t) hm
    show (up_presses env (handle_input env app (up_press (clock32 t))) ts).game_mode = _
    by_cases hq : last + BUMP_DELAY ≤ t
    · have hsub : BUMP_DELAY ≤ tick_sub (clock32 t) app.table.last_bump := by
        rw [hl, tick_sub_clock32 t last hlt htb]; omega
      simp only [qualifying_bumps, if_pos hq]
      by_cases hc2 : c + 1 < 3
      · obtain ⟨g1, g2, g3, g4, -⟩ :=
          track_bump_counted app (clock32 t) hsub (by rw [hc]; exact hc2)
        rw [ih (handle_input env app (up_press (clock32 t))) (c + 1) t
          (hstep.game_mode.trans (g1.trans hm))
          (hstep.tilt_detect_enabled.trans (g4.trans ht))
          (hstep.bump_count.trans (g2.trans (by rw [hc]))) hc2
          (hstep.last_bump.trans g3) hts hbts2]
        have e : c + 1 + (qualifying_bumps t ts : Int)
            = c + ((qualifying_bumps t ts + 1 : Nat) : Int) := by push_cast; ring
        rw [e]
      · obtain ⟨g1, -⟩ := track_bump_tilts app (clock32 t) hsub ht (by rw [hc]; exact hc2)
        rw [up_presses_tilted env ts _ (hstep.game_mode.trans g1), if_pos]
        push_cast
        omega
    · rw [track_bump_early app t last hl hlt (by omega)] at hstep
      simp only [qualifying_bumps, if_neg hq]
      exact ih (handle_input env app (up_press (clock32 t))) c last (hstep.game_mode.trans hm)
        (hstep.tilt_detect_enabled.trans ht) (hstep.bump_count.trans hc) hc3
        (hstep.last_bump.trans hl) hlts hbts

/-- C5: from mode Playing with tilt detection on and `bump_count = 0`, the
last counted bump being at time `t0`, after any sequence of Up presses (at
times in order from `t0` on, spanning less than one period of the 32-bit tick
counter) the mode is Tilted exactly when the presses so far hold at least
three qualifying bumps, a bump qualifying when it comes at least `BUMP_DELAY`
(2000 ticks) after the last counted bump; this holds after every prefix of
the sequence, so the mode changes on the third qualifying bump and is Playing
before it.  An Up press less than 2000 ticks after the last counted bump
leaves `bump_count`, `last_bump`, the held-Up state and the mode as they
were. -/
theorem tilt_on_third_bump (env : Externals K σ φ) (app : PinballApp K σ φ)
    (t0 : Nat) (times : List Nat)
    (hm : app.game_mode = GameMode.GM_Playing)
    (ht : app.table.tilt_detect_enabled = true)
    (hc : app.table.bump_count = 0)
    (hl : app.table.last_bump = clock32 t0)
    (hs : (t0 :: times).Sorted (· ≤ ·))
    (hb : ∀ t ∈ times, t < t0 + 2 ^ 32) :
    (∀ n : Nat,
      (up_presses env app (times.take n)).game_mode =
        if 3 ≤ qualifying_bumps t0 (times.take n) then GameMode.GM_Tilted
        else GameMode.GM_Playing) ∧
    (∀ (a : PinballApp K σ φ) (last t : Nat),
      a.table.last_bump = clock32 last → last ≤ t → t < last + BUMP_DELAY →
      (handle_input env a (up_press (clock32 t))).table.bump_count = a.table.bump_count ∧
      (handle_input env a (up_press (clock32 t))).table.last_bump = a.table.last_bump ∧
      (handle_input env a (up_press (clock32 t))).keys.up = a.keys.up ∧
      (handle_input env a (up_press (clock32 t))).game_mode = a.game_mode) := by
  refine ⟨fun n => ?_, fun a last t h1 h2 h3 => ?_⟩
  · have hsub : (t0 :: times.take n).Sublist (t0 :: times) :=
      List.Sublist.cons₂ _ (List.take_sublist n times)
    have h := up_presses_mode env (times.take n) app 0 t0 hm ht hc
      (by decide) hl (List.Pairwise.sublist hsub hs)
      (fun t htm => hb t (List.mem_of_mem_take htm))
    rw [h]
    simp only [zero_add, Nat.ofNat_le_cast]
  · have h := up_press_early env a t last h1 h2 h3
    exact ⟨h.bump_count, h.last_bump, h.up, h.game_mode⟩

/-- Witness of C5: the last counted bump 1000 ticks before the counter wraps,
then presses 2000, 2500, 4000 and 6000 ticks after it; the press at 2500 does
not qualify, the one at 6000 is the third qualifying bump. -/
theorem tilt_on_third_bump_witness :
    (demo_app GameMode.GM_Playing bumped_table).game_mode = GameMode.GM_Playing ∧
    (demo_app GameMode.GM_Playing bumped_table).table.tilt_detect_enabled = true ∧
    (demo_app GameMode.GM_Playing bumped_table).table.bump_count = 0 ∧
    (demo_app GameMode.GM_Playing bumped_table).table.last_bump = clock32 4294966296 ∧
    (4294966296 :: [4294968296, 4294968796, 4294970296, 4294972296]).Sorted (· ≤ ·) ∧
    (∀ t ∈ [4294968296, 4294968796, 4294970296, 4294972296], t < 4294966296 + 2 ^ 32) ∧
    (up_presses (demo_env false) (demo_app GameMode.GM_Playing bumped_table)
      [4294968296, 4294968796, 4294970296]).game_mode = GameMode.GM_Playing ∧
    (up_presses (demo_env false) (demo_app GameMode.GM_Playing bumped_table)
      [4294968296, 4294968796, 4294970296, 4294972296]).game_mode = GameMode.GM_Tilted :=
  ⟨rfl, rfl, rfl, by decide, by decide, by decide,
    ((tilt_on_third_bump (demo_env false) (demo_app GameMode.GM_Playing bumped_table)
      4294966296 [4294968296, 4294968796, 4294970296, 4294972296]
      rfl rfl rfl (by decide) (by decide) (by decide)).1 3).trans (by decide),
    ((tilt_on_third_bump (demo_env false) (demo_app GameMode.GM_Playing bumped_table)
      4294966296 [4294968296, 4294968796, 4294970296, 4294972296]
      rfl rfl rfl (by decide) (by decide) (by decide)).1 4).trans (by decide)⟩

end Tilt

section Pairs

/-! ## The pair resolution at concrete inputs -/

theorem sqrt_225 : Real.sqrt 225 = 15 := by
  rw [show (225 : ℝ) = 15 ^ 2 by norm_num]
  exact Real.sqrt_sq (by norm_num)

theorem overlapping_pair_dist2 :
    Vec2.mag2 ((resting_ball (100 : ℝ) 100 10).p - (resting_ball (100 : ℝ) 115 10).p)
      = 225 := by
  simp only [resting_ball, Vec2.mag2, Vec2.sub_x, Vec2.sub_y]
  norm_num

/-- C3 at its own scenario (radius 10 balls at (100,100) and (100,115),
distance 15 < 20, exact real arithmetic): the resolution moves both centres
by the same vector (0, -2.5), so the distance after it is 15 again, not
greater than 15. -/
theorem overlapping_pair_not_separated :
    Real.sqrt (Vec2.mag2
      ((resting_ball (100 : ℝ) 100 10).p - (resting_ball (100 : ℝ) 115 10).p)) = 15 ∧
    (collide_pair Real.sqrt (resting_ball 100 100 10) (resting_ball 100 115 10)).1.p
      = ⟨100, 97.5⟩ ∧
    (collide_pair Real.sqrt (resting_ball 100 100 10) (resting_ball 100 115 10)).2.p
      = ⟨100, 112.5⟩ ∧
    Real.sqrt (Vec2.mag2
      ((collide_pair Real.sqrt (resting_ball 100 100 10) (resting_ball 100 115 10)).1.p -
       (collide_pair Real.sqrt (resting_ball 100 100 10) (resting_ball 100 115 10)).2.p))
      = 15 ∧
    ¬ (15 < Real.sqrt (Vec2.mag2
      ((collide_pair Real.sqrt (resting_ball 100 100 10) (resting_ball 100 115 10)).1.p -
       (collide_pair Real.sqrt (resting_ball 100 100 10) (resting_ball 100 115 10)).2.p))) := by
  have hpost : Real.sqrt (Vec2.mag2
      ((collide_pair Real.sqrt (resting_ball 100 100 10) (resting_ball 100 115 10)).1.p -
       (collide_pair Real.sqrt (resting_ball 100 100 10) (resting_ball 100 115 10)).2.p))
      = 15 := by
    rw [collide_pair_axis, overlapping_pair_dist2, sqrt_225]
  refine ⟨by rw [overlapping_pair_dist2, sqrt_225], ?_, ?_, hpost, ?_⟩
  · unfold collide_pair
    simp only [overlapping_pair_dist2, sqrt_225]
    rw [if_pos (by simp only [resting_ball]; norm_num)]
    simp only [resting_ball, Vec2.eq_iff, Vec2.sub_x, Vec2.sub_y, Vec2.scale_x, Vec2.scale_y]
    constructor <;> norm_num
  · unfold collide_pair
    simp only [overlapping_pair_dist2, sqrt_225]
    rw [if_pos (by simp only [resting_ball]; norm_num)]
    simp only [resting_ball, Vec2.eq_iff, Vec2.sub_x, Vec2.sub_y, Vec2.scale_x, Vec2.scale_y]
    constructor <;> norm_num
  · rw [hpost]
    exact lt_irrefl _

/-- C8 at coincident centres (two radius 10 balls at (50,50), exact real
arithmetic): `dist = 0 < 20`, the branch is entered and the division by
`dist` at line 58 is evaluated with divisor zero. -/
theorem coincident_pair_divides_by_zero :
    Real.sqrt (Vec2.mag2
      ((resting_ball (50 : ℝ) 50 10).p - (resting_ball (50 : ℝ) 50 10).p)) = 0 ∧
    collide_pair_checked Real.sqrt (resting_ball (50 : ℝ) 50 10) (resting_ball 50 50 10)
      = none := by
  have hd : Vec2.mag2 ((resting_ball (50 : ℝ) 50 10).p - (resting_ball (50 : ℝ) 50 10).p)
      = 0 := by
    simp only [resting_ball, Vec2.mag2, Vec2.sub_x, Vec2.sub_y]
    norm_num
  refine ⟨by rw [hd, Real.sqrt_zero], ?_⟩
  exact collide_pair_checked_coincident Real.sqrt Real.sqrt_zero _ _ rfl
    (by simp only [resting_ball]; norm_num)

/-! ## A two-ball table evaluated -/

theorem sqrt_far : Rat.sqrt 1690000 = 1300 := by
  rw [show (1690000 : ℚ) = 1300 * 1300 by norm_num, Rat.sqrt_eq]
  norm_num

theorem collide_pair_far :
    collide_pair Rat.sqrt (resting_ball 100 100 10) (resting_ball 100 1400 10)
      = (resting_ball 100 100 10, resting_ball 100 1400 10) := by
  have hd : Vec2.mag2 ((resting_ball (100 : ℚ) 100 10).p - (resting_ball (100 : ℚ) 1400 10).p)
      = 1690000 := by
    simp only [resting_ball, Vec2.mag2, Vec2.sub_x, Vec2.sub_y]
    norm_num
  unfold collide_pair
  simp only [hd, sqrt_far]
  rw [if_neg (by simp only [resting_ball]; norm_num)]

theorem collide_balls_far :
    collide_balls Rat.sqrt [resting_ball (100 : ℚ) 100 10, resting_ball 100 1400 10]
      = [resting_ball 100 100 10, resting_ball 100 1400 10] := by
  simp only [collide_balls, collide_outer, collide_inner, List.length_cons, List.length_nil,
    List.get?]
  rw [collide_pair_far]
  rfl

theorem sub_step_far :
    sub_step (demo_env false) (demo_app GameMode.GM_Playing two_ball_table) 0
      = demo_app GameMode.GM_Playing two_ball_table := by
  simp only [sub_step, demo_app, two_ball_table, empty_table, demo_env, Bool.false_eq_true,
    if_false, collide_balls_far]
  simp only [collide_statics, collide_objects, collide_flippers, List.map_nil]

theorem run_sub_steps_far :
    run_sub_steps (demo_env false) (demo_app GameMode.GM_Playing two_ball_table) 0
      = demo_app GameMode.GM_Playing two_ball_table := by
  simp only [run_sub_steps, PHYSICS_SUB_STEPS, sub_steps, zero_div, sub_step_far]

theorem two_ball_survivor :
    ∃ b ∈ (run_sub_steps (demo_env false)
      (demo_app GameMode.GM_Playing two_ball_table) 0).table.balls, b.p.y ≤ (1380 : ℚ) := by
  rw [run_sub_steps_far]
  exact ⟨resting_ball 100 100 10, by decide, by decide⟩

/-- Witness of C7: two balls, the second one fallen; it is removed, the first
one stays and one lost-life notification is logged. -/
theorem fallen_balls_removed_witness :
    (∃ b ∈ (run_sub_steps (demo_env false)
      (demo_app GameMode.GM_Playing two_ball_table) 0).table.balls, b.p.y ≤ (1380 : ℚ)) ∧
    (solve (demo_env false) (demo_app GameMode.GM_Playing two_ball_table) 0).table.balls
      = [resting_ball 100 100 10] ∧
    (solve (demo_env false) (demo_app GameMode.GM_Playing two_ball_table) 0).table.lives
      = 3 :=
  ⟨two_ball_survivor,
    (fallen_balls_removed (demo_env false) (demo_app GameMode.GM_Playing two_ball_table) 0
      two_ball_survivor).1.trans (by rw [run_sub_steps_far]; decide),
    (fallen_balls_removed (demo_env false) (demo_app GameMode.GM_Playing two_ball_table) 0
      two_ball_survivor).2.2.1⟩

end Pairs

section Lives

variable {K σ φ : Type} [LinearOrderedField K]

/-! ## The number of balls through the sub-steps -/

theorem collide_inner_length (sqrtf : K → K) (b1 k b2 : Nat) (balls : List (Ball K)) :
    (collide_inner sqrtf b1 k b2 balls).length = balls.length := by
  induction k generalizing b2 balls with
  | zero => rfl
  | succ k ih =>
    unfold collide_inner
    split
    · split
      · rw [ih]; simp only [List.length_set]
      · exact ih _ _
    · rfl

theorem collide_outer_length (sqrtf : K → K) (k b1 : Nat) (balls : List (Ball K)) :
    (collide_outer sqrtf k b1 balls).length = balls.length := by
  induction k generalizing b1 balls with
  | zero => rfl
  | succ k ih =>
    unfold collide_outer
    rw [ih, collide_inner_length]

theorem collide_balls_length (sqrtf : K → K) (balls : List (Ball K)) :
    (collide_balls sqrtf balls).length = balls.length :=
  collide_outer_length sqrtf _ _ balls

omit [LinearOrderedField K] in
theorem collide_statics_length (env : Externals K σ φ) (game_mode : GameMode)
    (balls : List (Ball K)) (objects : List (Object σ)) (flippers : List (Flipper K φ))
    (score : Int) (log : List Effect) :
    (collide_statics env game_mode balls objects flippers score log).balls.length
      = balls.length := by
  induction balls generalizing objects flippers score log with
  | nil => rfl
  | cons b bs ih =>
    unfold collide_statics
    simp only [List.length_cons, ih]

theorem sub_step_length (env : Externals K σ φ) (pb : PinballApp K σ φ) (sub_dt : K) :
    (sub_step env pb sub_dt).table.balls.length = pb.table.balls.length := by
  unfold sub_step
  simp only []
  split <;>
    simp only [List.length_map, collide_statics_length, collide_balls_length]

theorem sub_steps_length (env : Externals K σ φ) (n : Nat) (pb : PinballApp K σ φ)
    (sub_dt : K) :
    (sub_steps env n pb sub_dt).table.balls.length = pb.table.balls.length := by
  induction n generalizing pb with
  | zero => rfl
  | succ n ih =>
    unfold sub_steps
    rw [ih, sub_step_length]

/-- The sub-steps neither add nor remove a ball. -/
theorem run_sub_steps_length (env : Externals K σ φ) (pb : PinballApp K σ φ) (dt : K) :
    (run_sub_steps env pb dt).table.balls.length = pb.table.balls.length :=
  sub_steps_length env PHYSICS_SUB_STEPS pb _

/-! ## Lives through `solve` -/

/-- A call of `solve` keeps `lives.value`, or lowers it by one after a
non-empty ball collection fell off as a whole. -/
theorem solve_lives_cases (env : Externals K σ φ) (pb : PinballApp K σ φ) (dt : K) :
    (solve env pb dt).table.lives = pb.table.lives ∨
    ((solve env pb dt).table.lives = pb.table.lives - 1 ∧
      pb.table.balls ≠ [] ∧
      (run_sub_steps env pb dt).table.balls ≠ [] ∧
      ∀ b ∈ (run_sub_steps env pb dt).table.balls, (1380 : K) < b.p.y) := by
  have hs := run_sub_steps_same env pb dt
  by_cases hne : (run_sub_steps env pb dt).table.balls = []
  · left
    unfold solve
    rw [life_bookkeeping_empty _ hne]
    exact hs.lives
  · by_cases hall : ∀ b ∈ (run_sub_steps env pb dt).table.balls, (1380 : K) < b.p.y
    · right
      have hpb : pb.table.balls ≠ [] := by
        intro h0
        apply hne
        apply List.length_eq_zero.mp
        rw [run_sub_steps_length, h0]
        rfl
      refine ⟨?_, hpb, hne, hall⟩
      unfold solve
      rw [life_bookkeeping_all_fallen _ hne hall]
      split
      · show (run_sub_steps env pb dt).table.lives - 1 = _
        rw [hs.lives]
      · show (run_sub_steps env pb dt).table.lives - 1 = _
        rw [hs.lives]
    · left
      have hsurv : ∃ b ∈ (run_sub_steps env pb dt).table.balls, b.p.y ≤ (1380 : K) := by
        by_contra hcon
        apply hall
        intro b hb
        by_contra hlt
        exact hcon ⟨b, hb, not_lt.mp hlt⟩
      unfold solve
      rw [life_bookkeeping_survivor _ hsurv]
      exact hs.lives

theorem solve_lives_invariant (env : Externals K σ φ) (pb : PinballApp K σ φ) (dt : K)
    (h : lives_invariant pb.table) : lives_invariant (solve env pb dt).table := by
  have hs := run_sub_steps_same env pb dt
  obtain ⟨h0, hz⟩ := h
  by_cases hne : (run_sub_steps env pb dt).table.balls = []
  · unfold solve
    rw [life_bookkeeping_empty _ hne]
    exact ⟨by rw [hs.lives]; exact h0, fun _ => hne⟩
  · have hpb : pb.table.balls ≠ [] := by
      intro hb
      apply hne
      apply List.length_eq_zero.mp
      rw [run_sub_steps_length, hb]
      rfl
    have hpos : 1 ≤ pb.table.lives := by
      by_contra hlt
      have hzero : pb.table.lives = 0 := by omega
      exact hpb (hz hzero)
    by_cases hall : ∀ b ∈ (run_sub_steps env pb dt).table.balls, (1380 : K) < b.p.y
    · unfold solve
      rw [life_bookkeeping_all_fallen _ hne hall]
      by_cases hl : (run_sub_steps env pb dt).table.lives - 1 > 0
      · rw [if_pos hl]
        refine ⟨le_of_lt hl, fun hzero => ?_⟩
        exact absurd hzero (ne_of_gt hl)
      · rw [if_neg hl]
        refine ⟨?_, fun _ => rfl⟩
        show 0 ≤ (run_sub_steps env pb dt).table.lives - 1
        rw [hs.lives]
        omega
    · have hsurv : ∃ b ∈ (run_sub_steps env pb dt).table.balls, b.p.y ≤ (1380 : K) := by
        by_contra hcon
        apply hall
        intro b hb
        by_contra hlt
        exact hcon ⟨b, hb, not_lt.mp hlt⟩
      unfold solve
      rw [life_bookkeeping_survivor _ hsurv]
      refine ⟨by show 0 ≤ (run_sub_steps env pb dt).table.lives; rw [hs.lives]; exact h0,
        fun hzero => ?_⟩
      have hzero2 : pb.table.lives = 0 := by rw [← hs.lives]; exact hzero
      omega

/-- The bare predicate `lives.value >= 0` is not preserved by `solve`: a table
with no lives left and a fallen ball, which no run from a table loaded with a
life reaches, ends with `lives.value = -1`. -/
theorem solve_lives_zero_with_ball :
    (demo_app GameMode.GM_Playing (drained_table 0)).table.lives = 0 ∧
    (solve (demo_env false) (demo_app GameMode.GM_Playing (drained_table 0)) 0).table.lives
      = -1 := by
  refine ⟨rfl, ?_⟩
  unfold solve
  rw [life_bookkeeping_all_fallen _ (by decide) (by decide), if_neg (by decide)]
  decide

/-! ## Lives through key events -/

omit [LinearOrderedField K] in
theorem check_game_state_table (app : PinballApp K σ φ) :
    (check_game_state app).table = app.table := by
  unfold check_game_state
  split <;> rfl

theorem adjust_x_nil (balls : List (Ball K)) (d : K) (h : balls = []) :
    adjust_x balls d = [] := by
  rw [h]; rfl

theorem adjust_y_nil (balls : List (Ball K)) (d : K) (h : balls = []) :
    adjust_y balls d = [] := by
  rw [h]; rfl

omit [LinearOrderedField K] in
theorem load_table_lives_invariant (env : Externals K σ φ)
    (hload : ∀ (app : PinballApp K σ φ) (id : TableId),
      1 ≤ (env.table_load_table app id).2.lives)
    (app : PinballApp K σ φ) (id : TableId) :
    lives_invariant (load_table env app id).2.table := by
  have h := hload app id
  exact ⟨by show 0 ≤ (env.table_load_table app id).2.lives; omega,
    fun hz => by
      have hz2 : (env.table_load_table app id).2.lives = 0 := hz
      omega⟩

omit [LinearOrderedField K] in
/-- The invariant passes to a table with the same lives that is empty
whenever the first one is. -/
theorem lives_invariant_of_same (t u : Table K σ φ) (hl : u.lives = t.lives)
    (hb : t.balls = [] → u.balls = []) (h : lives_invariant t) : lives_invariant u :=
  ⟨by rw [hl]; exact h.1, fun hz => hb (h.2 (by rw [← hl]; exact hz))⟩

theorem press_flipper_key_lives (app : PinballApp K σ φ) (side : Side) (d : K)
    (h : lives_invariant app.table) :
    lives_invariant (press_flipper_key app side d).table := by
  unfold press_flipper_key
  split
  · exact h
  · refine lives_invariant_of_same app.table _ rfl (fun hb => ?_) h
    simp only []
    split
    · exact adjust_x_nil _ _ hb
    · exact hb

omit [LinearOrderedField K] in
theorem track_bump_table (app : PinballApp K σ φ) (tick : Nat) :
    (track_bump app tick).table.lives = app.table.lives ∧
    (track_bump app tick).table.balls = app.table.balls ∧
    (track_bump app tick).settings = app.settings := by
  unfold track_bump
  split
  · simp only []
    split <;> exact ⟨rfl, rfl, rfl⟩
  · exact ⟨rfl, rfl, rfl⟩

theorem press_up_lives (app : PinballApp K σ φ) (ev : InputEvent)
    (h : lives_invariant app.table) : lives_invariant (press_up app ev).table := by
  unfold press_up
  split
  · simp only []
    split
    · obtain ⟨h1, h2, -⟩ := track_bump_table app ev.current_tick
      split
      · exact lives_invariant_of_same app.table _ h1
          (fun hb => adjust_y_nil _ _ (h2.trans hb)) h
      · exact lives_invariant_of_same app.table _ h1 (fun hb => h2.trans hb) h
    · split
      · exact lives_invariant_of_same app.table _ rfl (fun hb => adjust_y_nil _ _ hb) h
      · exact h
  · exact h
  · split <;> exact h
  · exact h

theorem press_down_lives (app : PinballApp K σ φ)
    (h : lives_invariant app.table) : lives_invariant (press_down app).table := by
  unfold press_down
  split
  · refine lives_invariant_of_same app.table _ rfl (fun hb => ?_) h
    simp only []
    split
    · exact adjust_y_nil _ _ hb
    · exact hb
  · exact h
  · split <;> exact h
  · exact h

omit [LinearOrderedField K] in
theorem press_ok_lives (env : Externals K σ φ)
    (hload : ∀ (app : PinballApp K σ φ) (id : TableId),
      1 ≤ (env.table_load_table app id).2.lives)
    (app : PinballApp K σ φ) (h : lives_invariant app.table) :
    lives_invariant (press_ok env app).table := by
  unfold press_ok
  split
  · split
    · exact lives_invariant_of_same app.table _ rfl (fun hb => hb) h
    · exact h
  · simp only []
    split
    · exact load_table_lives_invariant env hload _ _
    · split
      · exact load_table_lives_invariant env hload _ _
      · exact load_table_lives_invariant env hload _ _
  · exact h
  · exact h

omit [LinearOrderedField K] in
theorem press_back_lives (env : Externals K σ φ)
    (hload : ∀ (app : PinballApp K σ φ) (id : TableId),
      1 ≤ (env.table_load_table app id).2.lives)
    (app : PinballApp K σ φ) (h : lives_invariant app.table) :
    lives_invariant (press_back env app).table := by
  unfold press_back
  split
  · exact h
  · exact load_table_lives_invariant env hload _ _
  · exact load_table_lives_invariant env hload _ _

omit [LinearOrderedField K] in
theorem release_key_lives (app : PinballApp K σ φ) (key : InputKey)
    (h : lives_invariant app.table) : lives_invariant (release_key app key).table := by
  unfold release_key
  split
  · exact lives_invariant_of_same app.table _ rfl (fun hb => hb) h
  · exact h

theorem handle_input_lives (env : Externals K σ φ)
    (hload : ∀ (app : PinballApp K σ φ) (id : TableId),
      1 ≤ (env.table_load_table app id).2.lives)
    (app : PinballApp K σ φ) (ev : InputEvent) (h : lives_invariant app.table) :
    lives_invariant (handle_input env app ev).table := by
  unfold handle_input
  split
  · split
    · exact press_back_lives env hload app h
    · exact press_flipper_key_lives app _ _ h
    · exact press_flipper_key_lives app _ _ h
    · exact press_up_lives app ev h
    · exact press_down_lives app h
    · exact press_ok_lives env hload app h
  · split
    · exact release_key_lives app _ h
    · exact h

theorem loop_body_lives (env : Externals K σ φ)
    (hload : ∀ (app : PinballApp K σ φ) (id : TableId),
      1 ≤ (env.table_load_table app id).2.lives)
    (app : PinballApp K σ φ) (ev : Option InputEvent) (dt : K)
    (h : lives_invariant app.table) :
    lives_invariant (loop_body env app ev dt).table := by
  unfold loop_body
  rw [check_game_state_table]
  cases ev with
  | none =>
    exact lives_invariant_of_same _ _ rfl (fun hb => hb) (solve_lives_invariant env app dt h)
  | some e =>
    exact lives_invariant_of_same _ _ rfl (fun hb => hb)
      (solve_lives_invariant env _ dt (handle_input_lives env hload app e h))

/-- Every reachable state satisfies the invariant, when every load yields a
table with a life. -/
theorem reachable_lives_invariant (env : Externals K σ φ)
    (hload : ∀ (app : PinballApp K σ φ) (id : TableId),
      1 ≤ (env.table_load_table app id).2.lives)
    (pb : PinballApp K σ φ) (hr : Reachable env pb) : lives_invariant pb.table := by
  induction hr with
  | loaded app h => exact ⟨by omega, fun hz => by omega⟩
  | after_solve app dt _ ih => exact solve_lives_invariant env app dt ih
  | after_key app ev _ ih => exact handle_input_lives env hload app ev ih
  | after_frame app ev dt _ ih => exact loop_body_lives env hload app ev dt ih

/-- C11: in every state reachable from a table loaded with `lives.value >= 1`
by calls of `solve` and key events (every load yielding such a table),
`lives.value >= 0` holds and still holds after `solve`; a call of `solve`
leaves `lives.value` as it is or lowers it by exactly one, and lowers it only
when the ball collection was non-empty and every ball had fallen off
(`p.y > 1380`) as the bookkeeping started. -/
theorem lives_never_negative (env : Externals K σ φ)
    (hload : ∀ (app : PinballApp K σ φ) (id : TableId),
      1 ≤ (env.table_load_table app id).2.lives)
    (pb : PinballApp K σ φ) (hr : Reachable env pb) (dt : K) :
    0 ≤ pb.table.lives ∧
    0 ≤ (solve env pb dt).table.lives ∧
    ((solve env pb dt).table.lives = pb.table.lives ∨
      ((solve env pb dt).table.lives = pb.table.lives - 1 ∧
        pb.table.balls ≠ [] ∧
        (run_sub_steps env pb dt).table.balls ≠ [] ∧
        ∀ b ∈ (run_sub_steps env pb dt).table.balls, (1380 : K) < b.p.y)) :=
  ⟨(reachable_lives_invariant env hload pb hr).1,
    (solve_lives_invariant env pb dt (reachable_lives_invariant env hload pb hr)).1,
    solve_lives_cases env pb dt⟩

theorem demo_env_loads (hit : Bool) (app : PinballApp ℚ Unit Unit) (id : TableId) :
    1 ≤ ((demo_env hit).table_load_table app id).2.lives := by
  show (1 : Int) ≤ empty_table.lives
  decide

/-- Witness of C11: the state after losing the last life (one life, the only
ball fallen, then `solve`), and one more call of `solve`. -/
theorem lives_never_negative_witness :
    (∀ (app : PinballApp ℚ Unit Unit) (id : TableId),
      1 ≤ ((demo_env false).table_load_table app id).2.lives) ∧
    Reachable (demo_env false)
      (solve (demo_env false) (demo_app GameMode.GM_Playing (drained_table 1)) 0) ∧
    0 ≤ (solve (demo_env false)
      (solve (demo_env false) (demo_app GameMode.GM_Playing (drained_table 1)) 0) 0).table.lives :=
  ⟨demo_env_loads false,
    Reachable.after_solve _ _ (Reachable.loaded _ (by decide)),
    (lives_never_negative (demo_env false) (demo_env_loads false)
      (solve (demo_env false) (demo_app GameMode.GM_Playing (drained_table 1)) 0)
      (Reachable.after_solve _ _ (Reachable.loaded _ (by decide))) 0).2.1⟩

end Lives

section Back

variable {K σ φ : Type} [LinearOrderedField K]

/-- C12, as stated, fails in mode TableSelect: a Back press there makes no
call of `table_load_table` (the log stays empty, the table is the one held
before) and clears `processing`, which ends the event loop. -/
theorem back_in_table_select_exits :
    is_back_press
      { key := InputKey.InputKeyBack, type := InputType.InputTypePress, current_tick := 0 }
      = true ∧
    (handle_input (demo_env false) (demo_app GameMode.GM_TableSelect busy_table)
      { key := InputKey.InputKeyBack, type := InputType.InputTypePress,
        current_tick := 0 }).log = [] ∧
    (handle_input (demo_env false) (demo_app GameMode.GM_TableSelect busy_table)
      { key := InputKey.InputKeyBack, type := InputType.InputTypePress,
        current_tick := 0 }).table = busy_table ∧
    (handle_input (demo_env false) (demo_app GameMode.GM_TableSelect busy_table)
      { key := InputKey.InputKeyBack, type := InputType.InputTypePress,
        current_tick := 0 }).processing = false ∧
    (handle_input (demo_env false) (demo_app GameMode.GM_Playing busy_table)
      { key := InputKey.InputKeyBack, type := InputType.InputTypePress,
        current_tick := 0 }).log = [Effect.load_table TableId.TABLE_SELECT] := by
  refine ⟨by decide, by decide, by decide, by decide, by decide⟩

theorem handle_input_back (env : Externals K σ φ) (app : PinballApp K σ φ)
    (ev : InputEvent) (hb : is_back_press ev = true) :
    handle_input env app ev = press_back env app := by
  obtain ⟨key, type, tick⟩ := ev
  cases key <;> cases type <;> simp [is_back_press] at hb <;> simp [handle_input]

/-- C12 (amended): handling a Back press, long press or repeat leaves
`game_mode = GM_TableSelect` in every mode.  In every mode other than
TableSelect it reloads the selection table (`TABLE_SELECT`), after saving the
settings when the mode was Settings; in mode TableSelect it reloads nothing
and clears `processing`. -/
theorem back_returns_to_table_select (env : Externals K σ φ) (app : PinballApp K σ φ)
    (ev : InputEvent) (hb : is_back_press ev = true) :
    (handle_input env app ev).game_mode = GameMode.GM_TableSelect ∧
    (app.game_mode = GameMode.GM_TableSelect →
      handle_input env app ev = { app with processing := false }) ∧
    (app.game_mode = GameMode.GM_Settings →
      (handle_input env app ev).log
        = app.log ++ [Effect.save_settings, Effect.load_table TableId.TABLE_SELECT] ∧
      (handle_input env app ev).table
        = (env.table_load_table
            { app with
              game_mode := GameMode.GM_TableSelect,
              log := app.log ++ [Effect.save_settings] }
            TableId.TABLE_SELECT).2) ∧
    (app.game_mode ≠ GameMode.GM_TableSelect → app.game_mode ≠ GameMode.GM_Settings →
      (handle_input env app ev).log = app.log ++ [Effect.load_table TableId.TABLE_SELECT] ∧
      (handle_input env app ev).table
        = (env.table_load_table { app with game_mode := GameMode.GM_TableSelect }
            TableId.TABLE_SELECT).2) := by
  rw [handle_input_back env app ev hb]
  unfold press_back load_table
  cases hm : app.game_mode <;> simp [hm]

/-- Witness of C12 (amended): a Back press in mode Settings. -/
theorem back_returns_to_table_select_witness :
    is_back_press
      { key := InputKey.InputKeyBack, type := InputType.InputTypePress, current_tick := 0 }
      = true ∧
    (handle_input (demo_env false) (demo_app GameMode.GM_Settings busy_table)
      { key := InputKey.InputKeyBack, type := InputType.InputTypePress,
        current_tick := 0 }).game_mode = GameMode.GM_TableSelect ∧
    (handle_input (demo_env false) (demo_app GameMode.GM_Settings busy_table)
      { key := InputKey.InputKeyBack, type := InputType.InputTypePress,
        current_tick := 0 }).log
      = [] ++ [Effect.save_settings, Effect.load_table TableId.TABLE_SELECT] :=
  ⟨by decide,
    (back_returns_to_table_select (demo_env false)
      (demo_app GameMode.GM_Settings busy_table)
      { key := InputKey.InputKeyBack, type := InputType.InputTypePress, current_tick := 0 }
      (by decide)).1,
    ((back_returns_to_table_select (demo_env false)
      (demo_app GameMode.GM_Settings busy_table)
      { key := InputKey.InputKeyBack, type := InputType.InputTypePress, current_tick := 0 }
      (by decide)).2.2.1 rfl).1⟩

end Back

section Impulse

/-! ## The pair resolution in exact real arithmetic -/

theorem Vec2.add_x {K : Type} [LinearOrderedField K] (a b : Vec2 K) :
    (a + b).x = a.x + b.x := rfl

theorem Vec2.add_y {K : Type} [LinearOrderedField K] (a b : Vec2 K) :
    (a + b).y = a.y + b.y := rfl

/-- The squared distance is the square of the distance. -/
theorem dist_mul_self (a : Vec2 ℝ) : Real.sqrt a.mag2 * Real.sqrt a.mag2 = a.mag2 :=
  Real.mul_self_sqrt (by unfold Vec2.mag2; nlinarith [mul_self_nonneg a.x, mul_self_nonneg a.y])

/-- Length of a non-negative multiple of a vector. -/
theorem length_scale (a : Vec2 ℝ) (c : ℝ) (hc : 0 ≤ c) :
    Real.sqrt (a * c).mag2 = Real.sqrt a.mag2 * c := by
  have h : (a * c).mag2 = (Real.sqrt a.mag2 * c) * (Real.sqrt a.mag2 * c) := by
    have hm := dist_mul_self a
    calc (a * c).mag2 = a.mag2 * (c * c) := by
          simp only [Vec2.mag2, Vec2.scale_x, Vec2.scale_y]; ring
      _ = (Real.sqrt a.mag2 * Real.sqrt a.mag2) * (c * c) := by rw [hm]
      _ = _ := by ring
  rw [h]
  exact Real.sqrt_mul_self (mul_nonneg (Real.sqrt_nonneg _) hc)

/-- The displacement of both positions by the resolution of an overlapping
pair. -/
theorem collide_pair_displacement (ball1 ball2 : Ball ℝ)
    (hd : 0 < Real.sqrt (ball1.p - ball2.p).mag2)
    (hr : Real.sqrt (ball1.p - ball2.p).mag2 < ball1.r + ball2.r) :
    (collide_pair Real.sqrt ball1 ball2).1.p - ball1.p
      = (ball1.p - ball2.p) *
          ((ball1.r + ball2.r - Real.sqrt (ball1.p - ball2.p).mag2)
            / (2 * Real.sqrt (ball1.p - ball2.p).mag2)) ∧
    (collide_pair Real.sqrt ball1 ball2).2.p - ball2.p
      = (ball1.p - ball2.p) *
          ((ball1.r + ball2.r - Real.sqrt (ball1.p - ball2.p).mag2)
            / (2 * Real.sqrt (ball1.p - ball2.p).mag2)) := by
  have hne : Real.sqrt (ball1.p - ball2.p).mag2 ≠ 0 := ne_of_gt hd
  unfold collide_pair
  simp only [if_pos hr]
  constructor
  · rw [Vec2.eq_iff]
    simp only [Vec2.sub_x, Vec2.sub_y, Vec2.scale_x, Vec2.scale_y]
    constructor <;> (field_simp; ring)
  · rw [Vec2.eq_iff]
    simp only [Vec2.sub_x, Vec2.sub_y, Vec2.scale_x, Vec2.scale_y]
    constructor <;> (field_simp; ring)

/-- C13: for two balls at distance `d` with `0 < d < r1 + r2`, in exact real
arithmetic, the resolution displaces the position of each ball by a multiple
of the axis `ball1.p - ball2.p` (the same multiple for both) whose length is
`(r1 + r2 - d) / 2`, half the overlap. -/
theorem correction_split_evenly (ball1 ball2 : Ball ℝ)
    (hd : 0 < Real.sqrt (ball1.p - ball2.p).mag2)
    (hr : Real.sqrt (ball1.p - ball2.p).mag2 < ball1.r + ball2.r) :
    (∃ c : ℝ,
      (collide_pair Real.sqrt ball1 ball2).1.p - ball1.p = (ball1.p - ball2.p) * c ∧
      (collide_pair Real.sqrt ball1 ball2).2.p - ball2.p = (ball1.p - ball2.p) * c) ∧
    Real.sqrt ((collide_pair Real.sqrt ball1 ball2).1.p - ball1.p).mag2
      = (ball1.r + ball2.r - Real.sqrt (ball1.p - ball2.p).mag2) / 2 ∧
    Real.sqrt ((collide_pair Real.sqrt ball1 ball2).2.p - ball2.p).mag2
      = (ball1.r + ball2.r - Real.sqrt (ball1.p - ball2.p).mag2) / 2 := by
  obtain ⟨h1, h2⟩ := collide_pair_displacement ball1 ball2 hd hr
  have hne : Real.sqrt (ball1.p - ball2.p).mag2 ≠ 0 := ne_of_gt hd
  have hc : 0 ≤ (ball1.r + ball2.r - Real.sqrt (ball1.p - ball2.p).mag2)
      / (2 * Real.sqrt (ball1.p - ball2.p).mag2) :=
    div_nonneg (by linarith) (by linarith)
  have hlen : Real.sqrt (ball1.p - ball2.p).mag2 *
      ((ball1.r + ball2.r - Real.sqrt (ball1.p - ball2.p).mag2)
        / (2 * Real.sqrt (ball1.p - ball2.p).mag2))
      = (ball1.r + ball2.r - Real.sqrt (ball1.p - ball2.p).mag2) / 2 := by
    field_simp
    ring
  refine ⟨⟨_, h1, h2⟩, ?_, ?_⟩
  · rw [h1, length_scale _ _ hc, hlen]
  · rw [h2, length_scale _ _ hc, hlen]

theorem overlapping_pair_apart :
    0 < Real.sqrt
      ((resting_ball (100 : ℝ) 100 10).p - (resting_ball (100 : ℝ) 115 10).p).mag2 := by
  rw [overlapping_pair_dist2, sqrt_225]
  norm_num

theorem overlapping_pair_overlaps :
    Real.sqrt ((resting_ball (100 : ℝ) 100 10).p - (resting_ball (100 : ℝ) 115 10).p).mag2
      < (resting_ball (100 : ℝ) 100 10).r + (resting_ball (100 : ℝ) 115 10).r := by
  rw [overlapping_pair_dist2, sqrt_225]
  simp only [resting_ball]
  norm_num

/-- Witness of C13: radius 10 balls at (100,100) and (100,115). -/
theorem correction_split_evenly_witness :
    0 < Real.sqrt
      ((resting_ball (100 : ℝ) 100 10).p - (resting_ball (100 : ℝ) 115 10).p).mag2 ∧
    Real.sqrt ((resting_ball (100 : ℝ) 100 10).p - (resting_ball (100 : ℝ) 115 10).p).mag2
      < (resting_ball (100 : ℝ) 100 10).r + (resting_ball (100 : ℝ) 115 10).r ∧
    Real.sqrt ((collide_pair Real.sqrt (resting_ball 100 100 10)
        (resting_ball 100 115 10)).1.p - (resting_ball (100 : ℝ) 100 10).p).mag2
      = ((resting_ball (100 : ℝ) 100 10).r + (resting_ball (100 : ℝ) 115 10).r
          - Real.sqrt
            ((resting_ball (100 : ℝ) 100 10).p - (resting_ball (100 : ℝ) 115 10).p).mag2)
        / 2 ∧
    Real.sqrt ((collide_pair Real.sqrt (resting_ball 100 100 10)
        (resting_ball 100 115 10)).2.p - (resting_ball (100 : ℝ) 115 10).p).mag2
      = 5 / 2 :=
  ⟨overlapping_pair_apart, overlapping_pair_overlaps,
    (correction_split_evenly (resting_ball 100 100 10) (resting_ball 100 115 10)
      overlapping_pair_apart overlapping_pair_overlaps).2.1,
    (correction_split_evenly (resting_ball 100 100 10) (resting_ball 100 115 10)
      overlapping_pair_apart overlapping_pair_overlaps).2.2.trans
      (by rw [overlapping_pair_dist2, sqrt_225]; simp only [resting_ball]; norm_num)⟩

/-- The implicit velocities after the resolution of an overlapping pair. -/
theorem collide_pair_velocity (ball1 ball2 : Ball ℝ)
    (hr : Real.sqrt (ball1.p - ball2.p).mag2 < ball1.r + ball2.r) :
    (collide_pair Real.sqrt ball1 ball2).1.velocity
      = ball1.velocity + (ball1.p - ball2.p) *
          (1.01 * (ball1.p - ball2.p).dot ball2.velocity / (ball1.p - ball2.p).mag2
            - 1.01 * (ball1.p - ball2.p).dot ball1.velocity / (ball1.p - ball2.p).mag2) ∧
    (collide_pair Real.sqrt ball1 ball2).2.velocity
      = ball2.velocity + (ball1.p - ball2.p) *
          (1.01 * (ball1.p - ball2.p).dot ball1.velocity / (ball1.p - ball2.p).mag2
            - 1.01 * (ball1.p - ball2.p).dot ball2.velocity / (ball1.p - ball2.p).mag2) := by
  unfold collide_pair
  simp only [if_pos hr]
  constructor
  · rw [Vec2.eq_iff]
    simp only [Ball.velocity, Vec2.dot, Vec2.sub_x, Vec2.sub_y, Vec2.add_x, Vec2.add_y,
      Vec2.scale_x, Vec2.scale_y]
    constructor <;> ring
  · rw [Vec2.eq_iff]
    simp only [Ball.velocity, Vec2.dot, Vec2.sub_x, Vec2.sub_y, Vec2.add_x, Vec2.add_y,
      Vec2.scale_x, Vec2.scale_y]
    constructor <;> ring

/-- C14: for two balls at distance `d` with `0 < d < r1 + r2`, in exact real
arithmetic, the resolution keeps the sum of the implicit velocities
`p - prev_p`, turns the relative velocity along the axis `ball1.p - ball2.p`
into `-1.02` times what it was, and keeps the component of each velocity
perpendicular to the axis. -/
theorem impulse_conserves_velocity (ball1 ball2 : Ball ℝ)
    (hd : 0 < Real.sqrt (ball1.p - ball2.p).mag2)
    (hr : Real.sqrt (ball1.p - ball2.p).mag2 < ball1.r + ball2.r) :
    (collide_pair Real.sqrt ball1 ball2).1.velocity
        + (collide_pair Real.sqrt ball1 ball2).2.velocity
      = ball1.velocity + ball2.velocity ∧
    ((collide_pair Real.sqrt ball1 ball2).1.velocity
        - (collide_pair Real.sqrt ball1 ball2).2.velocity).dot (ball1.p - ball2.p)
      = -1.02 * (ball1.velocity - ball2.velocity).dot (ball1.p - ball2.p) ∧
    (collide_pair Real.sqrt ball1 ball2).1.velocity.dot (ball1.p - ball2.p).perp
      = ball1.velocity.dot (ball1.p - ball2.p).perp ∧
    (collide_pair Real.sqrt ball1 ball2).2.velocity.dot (ball1.p - ball2.p).perp
      = ball2.velocity.dot (ball1.p - ball2.p).perp := by
  obtain ⟨h1, h2⟩ := collide_pair_velocity ball1 ball2 hr
  have hm : (ball1.p - ball2.p).mag2 ≠ 0 := ne_of_gt (Real.sqrt_pos.mp hd)
  have hm2 : (ball1.p - ball2.p).x * (ball1.p - ball2.p).x
      + (ball1.p - ball2.p).y * (ball1.p - ball2.p).y ≠ 0 := hm
  rw [h1, h2]
  refine ⟨?_, ?_, ?_, ?_⟩
  · rw [Vec2.eq_iff]
    simp only [Vec2.add_x, Vec2.add_y, Vec2.scale_x, Vec2.scale_y]
    constructor <;> ring
  · simp only [Vec2.dot, Vec2.mag2, Vec2.add_x, Vec2.add_y, Vec2.sub_x, Vec2.sub_y,
      Vec2.scale_x, Vec2.scale_y] at hm2 ⊢
    field_simp
    ring
  · simp only [Vec2.dot, Vec2.perp, Vec2.add_x, Vec2.add_y, Vec2.scale_x, Vec2.scale_y]
    ring
  · simp only [Vec2.dot, Vec2.perp, Vec2.add_x, Vec2.add_y, Vec2.scale_x, Vec2.scale_y]
    ring

theorem moving_pair_apart :
    0 < Real.sqrt ((falling_ball : Ball ℝ).p - (rising_ball : Ball ℝ).p).mag2 :=
  overlapping_pair_apart

theorem moving_pair_overlaps :
    Real.sqrt ((falling_ball : Ball ℝ).p - (rising_ball : Ball ℝ).p).mag2
      < (falling_ball : Ball ℝ).r + (rising_ball : Ball ℝ).r :=
  overlapping_pair_overlaps

/-- Witness of C14: radius 10 balls at (100,100) and (100,115) with velocities
(1,2) and (0,-1); the relative velocity along the axis (0,-15) goes from -45
to 45.9. -/
theorem impulse_conserves_velocity_witness :
    0 < Real.sqrt ((falling_ball : Ball ℝ).p - (rising_ball : Ball ℝ).p).mag2 ∧
    Real.sqrt ((falling_ball : Ball ℝ).p - (rising_ball : Ball ℝ).p).mag2
      < (falling_ball : Ball ℝ).r + (rising_ball : Ball ℝ).r ∧
    (collide_pair Real.sqrt falling_ball rising_ball).1.velocity
        + (collide_pair Real.sqrt falling_ball rising_ball).2.velocity
      = (falling_ball : Ball ℝ).velocity + (rising_ball : Ball ℝ).velocity ∧
    ((falling_ball : Ball ℝ).velocity - (rising_ball : Ball ℝ).velocity).dot
        ((falling_ball : Ball ℝ).p - (rising_ball : Ball ℝ).p) = -45 ∧
    ((collide_pair Real.sqrt falling_ball rising_ball).1.velocity
        - (collide_pair Real.sqrt falling_ball rising_ball).2.velocity).dot
        ((falling_ball : Ball ℝ).p - (rising_ball : Ball ℝ).p) = 45.9 :=
  ⟨moving_pair_apart, moving_pair_overlaps,
    (impulse_conserves_velocity falling_ball rising_ball
      moving_pair_apart moving_pair_overlaps).1,
    by simp only [falling_ball, rising_ball, Ball.velocity, Vec2.dot, Vec2.sub_x, Vec2.sub_y]
       norm_num,
    (impulse_conserves_velocity falling_ball rising_ball
      moving_pair_apart moving_pair_overlaps).2.1.trans
      (by simp only [falling_ball, rising_ball, Ball.velocity, Vec2.dot, Vec2.sub_x,
            Vec2.sub_y]
          norm_num)⟩

end Impulse

end Pinball0
